import Mathlib

set_option maxHeartbeats 1000000

namespace Source2AO

open Classical

/-- Three-component real vector, modelling mathutils.Vector as used by the addon. -/
structure Vec3 where
  x : ℝ
  y : ℝ
  z : ℝ

instance : Add Vec3 := ⟨fun a b => ⟨a.x + b.x, a.y + b.y, a.z + b.z⟩⟩

instance : Sub Vec3 := ⟨fun a b => ⟨a.x - b.x, a.y - b.y, a.z - b.z⟩⟩

instance : SMul ℝ Vec3 := ⟨fun c v => ⟨c * v.x, c * v.y, c * v.z⟩⟩

/-- Dot product of two vectors (mathutils Vector.dot). -/
def Vec3.dot (a b : Vec3) : ℝ := a.x * b.x + a.y * b.y + a.z * b.z

/-- Euclidean length (mathutils Vector.length). -/
noncomputable def Vec3.length (v : Vec3) : ℝ := Real.sqrt (Vec3.dot v v)

/-- mathutils Vector.normalized: scale to unit length, returning the zero vector unchanged
when the length is zero. -/
noncomputable def Vec3.normalize (v : Vec3) : Vec3 :=
  if Vec3.length v = 0 then v else ((1 : ℝ) / Vec3.length v) • v

/-- Row-major 3x3 real matrix (linear part of an object transform). -/
structure Mat3 where
  r1 : Vec3
  r2 : Vec3
  r3 : Vec3

/-- Matrix-vector product (rows dotted with the vector). -/
def Mat3.mulVec (m : Mat3) (v : Vec3) : Vec3 :=
  ⟨Vec3.dot m.r1 v, Vec3.dot m.r2 v, Vec3.dot m.r3 v⟩

/-- Affine world transform: obj.matrix_world applied to a point is the linear part
times the point plus the translation. -/
structure XForm where
  lin : Mat3
  trans : Vec3

/-- Application of the affine transform to a point (mat @ co). -/
def XForm.app (m : XForm) (v : Vec3) : Vec3 := m.lin.mulVec v + m.trans

/-- Python-level exceptions that can escape the estimator: the ZeroDivisionError raised by
contribution = 1.0 / float(raycount) at raycount = 0, and a failure raised by a ray_cast query. -/
inductive PyExc where
  | zeroDiv
  | rayFailure

/-- Mesh data read from the host: vertices as (local position, local normal) in index order,
edges as vertex-index pairs, polygons as lists of (vertex index, loop index) pairs
(zip(poly.vertices, poly.loop_indices)), the loop (face-corner) count, and the world transform. -/
structure MeshData where
  verts : List (Vec3 × Vec3)
  edges : List (ℕ × ℕ)
  polys : List (List (ℕ × ℕ))
  loopCount : ℕ
  M : XForm

/-- The up axis Vector((0, 0, 1)) used by the sampler and the estimator. -/
def upAxis : Vec3 := ⟨0, 0, 1⟩

/-- One cosine-weighted hemisphere direction from two uniform draws, as computed in
SXAO_generate.ray_randomizer: r = sqrt(u1), theta = 2*pi*u2, x = r*cos(theta),
y = r*sin(theta), z = sqrt(max(0, 1 - u1)). -/
noncomputable def rayFromU (u1 u2 : ℝ) : Vec3 :=
  ⟨Real.sqrt u1 * Real.cos (2 * Real.pi * u2),
   Real.sqrt u1 * Real.sin (2 * Real.pi * u2),
   Real.sqrt (max 0 (1 - u1))⟩

/-- Generate `n` (ray, dot-with-up) pairs in draw order, threading the PRNG state exactly as
the Python loop draws u1 then u2 per iteration. -/
noncomputable def genPairs {R : Type} (randFn : R → ℝ × R) : ℕ → R → List (Vec3 × ℝ) × R
  | 0, s => ([], s)
  | n + 1, s =>
    let p1 := randFn s
    let p2 := randFn p1.2
    let ray := rayFromU p1.1 p2.1
    let rest := genPairs randFn n p2.2
    ((ray, Vec3.dot ray upAxis) :: rest.1, rest.2)

/-- Stable insertion of a pair into a list sorted non-increasing by the stored dot product. -/
noncomputable def insertDesc (p : Vec3 × ℝ) : List (Vec3 × ℝ) → List (Vec3 × ℝ)
  | [] => [p]
  | q :: qs => if p.2 < q.2 then q :: insertDesc p qs else p :: q :: qs

/-- Stable sort into non-increasing dot order, modelling
sorted(hemisphere, key=lambda x: x[1], reverse=True). -/
noncomputable def sortDesc : List (Vec3 × ℝ) → List (Vec3 × ℝ)
  | [] => []
  | p :: ps => insertDesc p (sortDesc ps)

/-- SXAO_generate.ray_randomizer: reseed the generator with the fixed constant 42, draw
`count` cosine-weighted hemisphere samples paired with their dot against (0,0,1), and return
them sorted non-increasing by that dot, together with the generator state left behind.
The incoming generator state `s` is discarded by the reseed. -/
noncomputable def ray_randomizer {R : Type} (seedFn : ℕ → R) (randFn : R → ℝ × R)
    (count : ℕ) (s : R) : List (Vec3 × ℝ) × R :=
  let s0 := seedFn 42
  let gen := genPairs randFn count s0
  (sortDesc gen.1, gen.2)

/-- Per-vertex record gathered by SXAO_generate.vertex_data_dict:
[co_local, no_local, co_world, no_world, min_dot]. -/
structure VertexRec where
  coLocal : Vec3
  noLocal : Vec3
  coWorld : Vec3
  noWorld : Vec3
  minDot : ℝ

/-- Vertex indices connected to `v` by an edge (bmesh link_edges, other_vert). -/
def linkNeighbors (edges : List (ℕ × ℕ)) (v : ℕ) : List ℕ :=
  edges.filterMap (fun e =>
    if e.1 = v then some e.2 else if e.2 = v then some e.1 else none)

/-- The dot_list of vertex_data_dict: for each connected vertex, the dot of the normalized
local normal with the normalized direction towards it. -/
noncomputable def linkDots (verts : List (Vec3 × Vec3)) (edges : List (ℕ × ℕ))
    (v : ℕ) (co no : Vec3) : List ℝ :=
  (linkNeighbors edges v).filterMap (fun w =>
    (verts.get? w).map (fun vw => Vec3.dot (Vec3.normalize no) (Vec3.normalize (vw.1 - co))))

/-- Python min over a nonempty list; the empty case keeps the 0.0 default of min_dot. -/
noncomputable def listMin : List ℝ → ℝ
  | [] => 0
  | d :: ds => ds.foldl min d

/-- SXAO_generate.vertex_data_dict with dots=True: one record per vertex, where
co_world = mat @ co_local, no_world = (mat @ (co_local + no_local)) - mat @ co_local
normalized, and min_dot is the minimum link-edge dot (0.0 when the vertex has no edges). -/
noncomputable def vertex_data_dict (M : XForm) (verts : List (Vec3 × Vec3))
    (edges : List (ℕ × ℕ)) : List VertexRec :=
  verts.enum.map (fun vi =>
    let co := vi.2.1
    let no := vi.2.2
    { coLocal := co
      noLocal := no
      coWorld := M.app co
      noWorld := Vec3.normalize (M.app (co + no) - M.app co)
      minDot := listMin (linkDots verts edges vi.1 co no) })

/-- Index of the first element strictly below the threshold, if any: the enumerate/break
scan of occlusion_list over the sorted sample dots. -/
noncomputable def firstBelow : List ℝ → ℝ → Option ℕ
  | [], _ => none
  | d :: ds, m => if d < m then some 0 else (firstBelow ds m).map (fun i => i + 1)

/-- first_hit_index of occlusion_list: the first sample position whose dot falls below
min_dot, keeping the initial value raycount when no sample does. -/
noncomputable def cutIdx (hemi : List (Vec3 × ℝ)) (minDot : ℝ) (raycount : ℕ) : ℕ :=
  (firstBelow (hemi.map Prod.snd) minDot).getD raycount

/-- occ_value right after the min_dot cut:
occ_value = 1.0 - contribution * (raycount - first_hit_index). -/
noncomputable def occAfterCut (contribution : ℝ) (raycount fhi : ℕ) : ℝ :=
  1 - contribution * ((raycount : ℝ) - (fhi : ℝ))

/-- The bias used for ray origins: 0.001, extended by the distance of a close direct
self-hit along the local normal (hit, with normal.dot(local_no) > 0 and hit distance
below 0.5). -/
noncomputable def biasOf (probe : Option (Vec3 × Vec3)) (co no : Vec3) : ℝ :=
  match probe with
  | none => 0.001
  | some hit =>
    if Vec3.dot hit.2 no > 0 ∧ Vec3.length (hit.1 - co) < 0.5
    then 0.001 + Vec3.length (hit.1 - co) else 0.001

/-- Clamp to the unit interval: max(0.0, min(value, 1.0)). -/
noncomputable def clamp01 (v : ℝ) : ℝ := max 0 (min v 1)

/-- Blend factor clamp of occlusion_list: clamp_blend = max(min(blend, 1.0), 0.0). -/
noncomputable def clampBlend (blend : ℝ) : ℝ := max (min blend 1) 0

/-- Pass 2 of occlusion_list (blend < 1): cast each valid ray, rotated into the local
normal frame, against the evaluated object; each hit deducts one contribution and is
recorded in pass2_hits. A raised query aborts the whole computation. -/
noncomputable def localPass (oracle : Vec3 → Vec3 → ℝ → Except PyExc Bool)
    (pos : Vec3) (rot : Vec3 → Vec3) (dist contribution : ℝ) :
    List Vec3 → ℝ → Except PyExc (ℝ × List Bool)
  | [], occ => .ok (occ, [])
  | r :: rs, occ =>
    match oracle pos (rot r) dist with
    | .error e => .error e
    | .ok hit =>
      match localPass oracle pos rot dist contribution rs
          (if hit then occ - contribution else occ) with
      | .error e => .error e
      | .ok res => .ok (res.1, hit :: res.2)

/-- Pass 3 of occlusion_list (blend > 0): cast only the rays not already flagged as local
hits against the scene; each hit deducts one contribution from the scene accumulator. -/
noncomputable def scenePass (oracle : Vec3 → Vec3 → ℝ → Except PyExc Bool)
    (pos : Vec3) (rot : Vec3 → Vec3) (dist contribution : ℝ) :
    List (Vec3 × Bool) → ℝ → Except PyExc ℝ
  | [], scn => .ok scn
  | rb :: rs, scn =>
    if rb.2 then scenePass oracle pos rot dist contribution rs scn
    else
      match oracle pos (rot rb.1) dist with
      | .error e => .error e
      | .ok hit =>
        scenePass oracle pos rot dist contribution rs
          (if hit then scn - contribution else scn)

/-- Step 4 of the per-vertex loop: run the local pass only when blend < 1, otherwise keep
occ_value and the all-False pass2_hits list. -/
noncomputable def pass2 (objEvalRay : Vec3 → Vec3 → ℝ → Except PyExc Bool)
    (rotApp : Vec3 → Vec3 → Vec3) (vd : VertexRec) (bias dist contribution blendC : ℝ)
    (validRays : List Vec3) (occ0 : ℝ) : Except PyExc (ℝ × List Bool) :=
  if blendC < 1 then
    localPass objEvalRay (vd.coLocal + bias • vd.noLocal) (rotApp vd.noLocal)
      dist contribution validRays occ0
  else .ok (occ0, List.replicate validRays.length false)

/-- Step 5 of the per-vertex loop: when blend > 0, seed the scene accumulator from the
local value, run the scene pass over the rays not flagged locally, and blend
occ_value * (1 - blend) + scene_value * blend; then clamp to [0,1]. -/
noncomputable def pass3 (sceneRay : Vec3 → Vec3 → ℝ → Except PyExc Bool)
    (rotApp : Vec3 → Vec3 → Vec3) (vd : VertexRec) (bias dist contribution blendC : ℝ)
    (validRays : List Vec3) (res : ℝ × List Bool) : Except PyExc ℝ :=
  if blendC > 0 then
    match scenePass sceneRay (vd.coWorld + bias • vd.noWorld) (rotApp vd.noWorld)
        dist contribution (validRays.zip res.2) res.1 with
    | .error e => .error e
    | .ok scn => .ok (clamp01 (res.1 * (1 - blendC) + scn * blendC))
  else .ok (clamp01 res.1)

/-- The body of occlusion_list's per-vertex loop. `objRay` is obj.ray_cast (the direct
bias probe, returning hit location and normal), `objEvalRay` is obj_eval.ray_cast reduced
to its hit flag, `sceneRay` is bpy.context.scene.ray_cast reduced to its hit flag, and
`rotApp n r` models forward.rotation_difference(n) @ r, rotating sample `r` from the up
axis into the frame of normal `n`. -/
noncomputable def vertexOcc (objRay : Vec3 → Vec3 → ℝ → Except PyExc (Option (Vec3 × Vec3)))
    (objEvalRay sceneRay : Vec3 → Vec3 → ℝ → Except PyExc Bool)
    (rotApp : Vec3 → Vec3 → Vec3) (hemi : List (Vec3 × ℝ)) (raycount : ℕ)
    (contribution blendC dist : ℝ) (vd : VertexRec) : Except PyExc ℝ :=
  match objRay vd.coLocal vd.noLocal dist with
  | .error e => .error e
  | .ok probe =>
    let bias := biasOf probe vd.coLocal vd.noLocal
    let fhi := cutIdx hemi vd.minDot raycount
    let validRays := (hemi.take fhi).map Prod.fst
    match pass2 objEvalRay rotApp vd bias dist contribution blendC validRays
        (occAfterCut contribution raycount fhi) with
    | .error e => .error e
    | .ok res => pass3 sceneRay rotApp vd bias dist contribution blendC validRays res

/-- The per-vertex loop of occlusion_list over the records of vertex_data_dict, in
dictionary (vertex index) order; a raised exception aborts the remaining vertices. -/
noncomputable def vertLoop (objRay : Vec3 → Vec3 → ℝ → Except PyExc (Option (Vec3 × Vec3)))
    (objEvalRay sceneRay : Vec3 → Vec3 → ℝ → Except PyExc Bool)
    (rotApp : Vec3 → Vec3 → Vec3) (hemi : List (Vec3 × ℝ)) (raycount : ℕ)
    (contribution blendC dist : ℝ) : List VertexRec → Except PyExc (List ℝ)
  | [] => .ok []
  | vd :: vds =>
    match vertexOcc objRay objEvalRay sceneRay rotApp hemi raycount contribution
        blendC dist vd with
    | .error e => .error e
    | .ok occ =>
      match vertLoop objRay objEvalRay sceneRay rotApp hemi raycount contribution
          blendC dist vds with
      | .error e => .error e
      | .ok occs => .ok (occ :: occs)

/-- Python list slice assignment loop_colors[4*l : 4*l + 4] = [v, v, v, 1.0]:
replace the four slots of corner l (extending the list when 4*l is past the end,
exactly as Python slice assignment would). -/
def sliceSet4 {α : Type} [One α] (xs : List α) (l : ℕ) (v : α) : List α :=
  xs.take (4 * l) ++ ([v, v, v, 1] ++ xs.drop (4 * l + 4))

/-- The preallocated buffer [0.0, 0.0, 0.0, 1.0] * len(loops). -/
def initColors {α : Type} [Zero α] [One α] (loopCount : ℕ) : List α :=
  (List.replicate loopCount ([0, 0, 0, 1] : List α)).flatten

/-- One polygon of the writer loop: for each (vertex, corner) pair of the face, write the
vertex's occlusion value into the corner's four slots as (v, v, v, 1.0). -/
def writeFace {α : Type} [One α] (occ : ℕ → α) (colors : List α)
    (pairs : List (ℕ × ℕ)) : List α :=
  pairs.foldl (fun cs p => sliceSet4 cs p.2 (occ p.1)) colors

/-- The color writer at the end of occlusion_list: visit every face and every
(vertex, corner) pair of that face, writing into the preallocated flat RGBA buffer. -/
def buildLoopColors {α : Type} [Zero α] [One α] (loopCount : ℕ)
    (polys : List (List (ℕ × ℕ))) (occ : ℕ → α) : List α :=
  polys.foldl (writeFace occ) (initColors loopCount)

/-- SXAO_generate.occlusion_list: build the sorted sample set (via the reseeding
ray_randomizer), raise ZeroDivisionError on raycount = 0 (contribution = 1.0 / raycount),
clamp the blend factor, build vertex_data_dict and return None when it is empty, run the
per-vertex estimator, and expand the per-vertex values into the per-corner color buffer.
The groundplane parameter is accepted and ignored, as in the source. -/
noncomputable def occlusion_list {R : Type} (seedFn : ℕ → R) (randFn : R → ℝ × R)
    (objRay : Vec3 → Vec3 → ℝ → Except PyExc (Option (Vec3 × Vec3)))
    (objEvalRay sceneRay : Vec3 → Vec3 → ℝ → Except PyExc Bool)
    (rotApp : Vec3 → Vec3 → Vec3) (m : MeshData) (raycount : ℕ)
    (blend dist : ℝ) (groundplane : Bool) (s : R) : Except PyExc (Option (List ℝ)) :=
  let hemi := (ray_randomizer seedFn randFn raycount s).1
  if raycount = 0 then .error .zeroDiv
  else
    let contribution := 1 / (raycount : ℝ)
    let blendC := clampBlend blend
    let vd := vertex_data_dict m.M m.verts m.edges
    if vd = [] then .ok none
    else
      match vertLoop objRay objEvalRay sceneRay rotApp hemi raycount contribution
          blendC dist vd with
      | .error e => .error e
      | .ok occs =>
        .ok (some (buildLoopColors m.loopCount m.polys (fun i => occs.getD i 0)))

/-- Failure reasons recorded per object by the bake operator. -/
inductive FailReason where
  | noData
  | sizeMismatch
  | exc (e : PyExc)

/-- Outcome of one object's bake in the operator loop. -/
inductive BakeOutcome where
  | baked (colors : List ℝ)
  | failed (r : FailReason)

/-- The per-object non-geonode branch of OBJECT_OT_bake_ao_to_selected_attribute.execute
(modules/ao_baking.py lines 72-92): create the temporary ground plane when requested, run
occlusion_list, remove the plane only after a normal return, then check the result; the
surrounding per-object try/except turns a raised exception into a recorded failure without
running the removal. The second component reports whether SXAO_TempGroundPlane is still in
the scene after the object's bake. -/
def objectBake (groundplane : Bool) (est : Except PyExc (Option (List ℝ)))
    (loopCount : ℕ) : BakeOutcome × Bool :=
  match est with
  | .error e => (.failed (.exc e), groundplane)
  | .ok none => (.failed .noData, false)
  | .ok (some colors) =>
    if colors.length = 4 * loopCount then (.baked colors, false)
    else (.failed .sizeMismatch, false)

/-- The inner ray loop of calculate_geonode_ao: per ray, jitter each component of the
vertex normal by (random() - 0.5) * 0.8, normalize, and if the jittered direction still
faces outward (dot > 0), cast against the object from pos + 0.001 * normal; each hit
deducts 1.0 / ray_count. Draws three randoms per ray from the ambient generator state. -/
noncomputable def geoRayLoop {R : Type} (randFn : R → ℝ × R)
    (oracle : Vec3 → Vec3 → ℝ → Except PyExc Bool) (pos normal : Vec3)
    (distance : ℝ) (ray_count : ℕ) : ℕ → ℝ → R → Except PyExc (ℝ × R)
  | 0, ao, s => .ok (ao, s)
  | k + 1, ao, s =>
    let p1 := randFn s
    let p2 := randFn p1.2
    let p3 := randFn p2.2
    let dir := Vec3.normalize
      ⟨normal.x + (p1.1 - 0.5) * 0.8,
       normal.y + (p2.1 - 0.5) * 0.8,
       normal.z + (p3.1 - 0.5) * 0.8⟩
    if Vec3.dot dir normal > 0 then
      match oracle (pos + (0.001 : ℝ) • normal) dir distance with
      | .error e => .error e
      | .ok hit =>
        geoRayLoop randFn oracle pos normal distance ray_count k
          (if hit then ao - 1 / (ray_count : ℝ) else ao) p3.2
    else geoRayLoop randFn oracle pos normal distance ray_count k ao p3.2

/-- The vertex loop of calculate_geonode_ao: world position via the full transform, world
normal via the 3x3 linear part normalized, the jittered-ray AO estimate, the optional
proximity-to-ground darkening below z = 0.1, and the [0,1] clamp, accumulated into the
vert_ao mapping (which defaults to 1.0 for unwritten indices). -/
noncomputable def geoVertLoop {R : Type} (randFn : R → ℝ × R)
    (oracle : Vec3 → Vec3 → ℝ → Except PyExc Bool) (M : XForm) (ray_count : ℕ)
    (distance : ℝ) (ground_plane : Bool) :
    List (Vec3 × Vec3) → ℕ → (ℕ → ℝ) → R → Except PyExc ((ℕ → ℝ) × R)
  | [], _, acc, s => .ok (acc, s)
  | v :: vs, idx, acc, s =>
    let pos := M.app v.1
    let normal := Vec3.normalize (M.lin.mulVec v.2)
    match geoRayLoop randFn oracle pos normal distance ray_count ray_count 1 s with
    | .error e => .error e
    | .ok res =>
      let ao1 :=
        if ground_plane = true ∧ pos.z < 0.1 then
          res.1 * (1 - (1 - min 1 (pos.z / 0.1)) * 0.5)
        else res.1
      geoVertLoop randFn oracle M ray_count distance ground_plane vs (idx + 1)
        (Function.update acc idx (clamp01 ao1)) res.2

/-- The face-corner write loop of calculate_geonode_ao: for every loop of every face,
element assignments colors[4*l + k] into the preallocated [0.0] * (4 * loop_count) buffer. -/
noncomputable def geoFaceWrite (vertAO : ℕ → ℝ) (colors : List ℝ)
    (pairs : List (ℕ × ℕ)) : List ℝ :=
  pairs.foldl (fun cs p =>
    ((((cs.set (p.2 * 4) (vertAO p.1)).set (p.2 * 4 + 1) (vertAO p.1)).set
        (p.2 * 4 + 2) (vertAO p.1)).set (p.2 * 4 + 3) 1)) colors

/-- OBJECT_OT_bake_ao_to_selected_attribute.calculate_geonode_ao: the alternate
jittered-normal estimator. Vertices are visited in index order (bm.verts), and polys
carries each face's (vertex index, loop index) pairs as in the main path. -/
noncomputable def calculate_geonode_ao {R : Type} (randFn : R → ℝ × R)
    (oracle : Vec3 → Vec3 → ℝ → Except PyExc Bool) (m : MeshData) (ray_count : ℕ)
    (distance : ℝ) (ground_plane : Bool) (s : R) : Except PyExc (List ℝ) :=
  let colors0 : List ℝ := List.replicate (4 * m.loopCount) 0
  match geoVertLoop randFn oracle m.M ray_count distance ground_plane m.verts 0
      (fun _ => 1) s with
  | .error e => .error e
  | .ok res => .ok (m.polys.foldl (geoFaceWrite res.1) colors0)

/-- Spec-side reference (section 4.3 step 4): whether a valid sample is flagged as a local
hit — only when the local pass runs (blend < 1) and the local query from the biased local
position hits. -/
noncomputable def specLocalHit (f : Vec3 → Vec3 → ℝ → Bool)
    (rotApp : Vec3 → Vec3 → Vec3) (pos : Vec3) (n : Vec3) (blendC dist : ℝ)
    (r : Vec3) : Bool :=
  if blendC < 1 then f pos (rotApp n r) dist else false

/-- Spec-side reference: the local-occlusion accumulator after the cut and the local pass,
1 - contribution * (skipped samples) - contribution * (local hits among valid samples). -/
noncomputable def specLocalOcc (f : Vec3 → Vec3 → ℝ → Bool)
    (rotApp : Vec3 → Vec3 → Vec3) (hemi : List (Vec3 × ℝ)) (raycount : ℕ)
    (contribution blendC dist : ℝ) (vd : VertexRec) (pos : Vec3) : ℝ :=
  occAfterCut contribution raycount (cutIdx hemi vd.minDot raycount) -
    contribution *
      (((hemi.take (cutIdx hemi vd.minDot raycount)).map Prod.fst).countP
        (specLocalHit f rotApp pos vd.noLocal blendC dist) : ℕ)

/-- Spec-side reference: the scene-occlusion accumulator, seeded from the local-occlusion
value, deducting one contribution per valid sample that was not flagged as a local hit and
whose scene ray-cast reports a hit. -/
noncomputable def specSceneOcc (f g : Vec3 → Vec3 → ℝ → Bool)
    (rotApp : Vec3 → Vec3 → Vec3) (hemi : List (Vec3 × ℝ)) (raycount : ℕ)
    (contribution blendC dist : ℝ) (vd : VertexRec) (lpos wpos : Vec3) : ℝ :=
  specLocalOcc f rotApp hemi raycount contribution blendC dist vd lpos -
    contribution *
      (((hemi.take (cutIdx hemi vd.minDot raycount)).map Prod.fst).countP
        (fun r => !(specLocalHit f rotApp lpos vd.noLocal blendC dist r) &&
          g wpos (rotApp vd.noWorld r) dist) : ℕ)

/-- Trivial generator-state carrier for concrete instantiations. -/
def unitSeed : ℕ → Unit := fun _ => ()

/-- Concrete generator always drawing 0 (a value random.random can approach). -/
def rand0 : Unit → ℝ × Unit := fun s => (0, s)

/-- Concrete generator always drawing 1/2. -/
noncomputable def randHalf : Unit → ℝ × Unit := fun s => (1 / 2, s)

/-- Identity 3x3 matrix. -/
def idMat3 : Mat3 := ⟨⟨1, 0, 0⟩, ⟨0, 1, 0⟩, ⟨0, 0, 1⟩⟩

/-- Identity world transform. -/
def idX : XForm := ⟨idMat3, ⟨0, 0, 0⟩⟩

/-- A single world-space triangle with upward normals: vertices (0,0,0), (1,0,0), (0,1,0),
the three triangle edges, one face with corners (0,0), (1,1), (2,2), three loops. -/
def triMesh : MeshData :=
  { verts := [(⟨0, 0, 0⟩, ⟨0, 0, 1⟩), (⟨1, 0, 0⟩, ⟨0, 0, 1⟩), (⟨0, 1, 0⟩, ⟨0, 0, 1⟩)]
    edges := [(0, 1), (1, 2), (0, 2)]
    polys := [[(0, 0), (1, 1), (2, 2)]]
    loopCount := 3
    M := idX }

/-- Direct-probe oracle that never hits. -/
def noHitRay : Vec3 → Vec3 → ℝ → Except PyExc (Option (Vec3 × Vec3)) :=
  fun _ _ _ => .ok none

/-- Boolean ray oracle that never hits. -/
def noHitB : Vec3 → Vec3 → ℝ → Except PyExc Bool := fun _ _ _ => .ok false

/-- Direct-probe oracle whose every query raises. -/
def throwRay : Vec3 → Vec3 → ℝ → Except PyExc (Option (Vec3 × Vec3)) :=
  fun _ _ _ => .error .rayFailure

/-- Identity frame rotation, a concrete stand-in for the quaternion rotation. -/
def rotId : Vec3 → Vec3 → Vec3 := fun _ r => r

/-- A concrete vertex record at the origin with an upward normal and min_dot 0. -/
def vd0 : VertexRec := ⟨⟨0, 0, 0⟩, ⟨0, 0, 1⟩, ⟨0, 0, 0⟩, ⟨0, 0, 1⟩, 0⟩

/-- A concrete one-sample hemisphere: the straight-up ray with dot 1. -/
def hemi1 : List (Vec3 × ℝ) := [(⟨0, 0, 1⟩, 1)]

/-- The second triMesh vertex record. -/
def vd1 : VertexRec := ⟨⟨1, 0, 0⟩, ⟨0, 0, 1⟩, ⟨1, 0, 0⟩, ⟨0, 0, 1⟩, 0⟩

/-- The third triMesh vertex record. -/
def vd2 : VertexRec := ⟨⟨0, 1, 0⟩, ⟨0, 0, 1⟩, ⟨0, 1, 0⟩, ⟨0, 0, 1⟩, 0⟩

/-- A mesh with no vertices. -/
def emptyMesh : MeshData :=
  { verts := [], edges := [], polys := [], loopCount := 0, M := idX }

/-- The occlusion result of the spec's ColorAttributeWriter example, over the rationals. -/
def occQ : ℕ → ℚ := fun i => if i = 0 then 1 else if i = 1 then 1 / 2 else 0

theorem vec3_dot_up (v : Vec3) : Vec3.dot v upAxis = v.z := by
  simp [Vec3.dot, upAxis]

theorem genPairs_length {R : Type} (randFn : R → ℝ × R) (n : ℕ) (s : R) :
    ((genPairs randFn n s).1).length = n := by
  induction n generalizing s with
  | zero => rfl
  | succ k ih => simp [genPairs, ih]

theorem genPairs_mem {R : Type} (randFn : R → ℝ × R)
    (hrand : ∀ t : R, 0 ≤ (randFn t).1 ∧ (randFn t).1 < 1) (n : ℕ) (s : R) :
    ∀ p ∈ (genPairs randFn n s).1, ∃ u1 u2, 0 ≤ u1 ∧ u1 < 1 ∧ 0 ≤ u2 ∧ u2 < 1 ∧
      p = (rayFromU u1 u2, Vec3.dot (rayFromU u1 u2) upAxis) := by
  induction n generalizing s with
  | zero => simp [genPairs]
  | succ k ih =>
    intro p hp
    simp only [genPairs, List.mem_cons] at hp
    rcases hp with h | h
    · exact ⟨(randFn s).1, (randFn (randFn s).2).1, (hrand s).1, (hrand s).2,
        (hrand _).1, (hrand _).2, h⟩
    · exact ih _ p h

theorem mem_insertDesc (p q : Vec3 × ℝ) (l : List (Vec3 × ℝ)) :
    q ∈ insertDesc p l ↔ q = p ∨ q ∈ l := by
  induction l with
  | nil => simp [insertDesc]
  | cons a as ih =>
    simp only [insertDesc]
    split
    · simp only [List.mem_cons, ih]
      tauto
    · simp

theorem length_insertDesc (p : Vec3 × ℝ) (l : List (Vec3 × ℝ)) :
    (insertDesc p l).length = l.length + 1 := by
  induction l with
  | nil => rfl
  | cons a as ih =>
    simp only [insertDesc]
    split
    · simp [ih]
    · simp

theorem pairwise_insertDesc (p : Vec3 × ℝ) (l : List (Vec3 × ℝ))
    (h : List.Pairwise (fun a b => b.2 ≤ a.2) l) :
    List.Pairwise (fun a b => b.2 ≤ a.2) (insertDesc p l) := by
  induction l with
  | nil => simp [insertDesc]
  | cons a as ih =>
    rw [List.pairwise_cons] at h
    simp only [insertDesc]
    split
    · rename_i hlt
      rw [List.pairwise_cons]
      refine ⟨?_, ih h.2⟩
      intro q hq
      rw [mem_insertDesc] at hq
      rcases hq with rfl | hq
      · exact le_of_lt hlt
      · exact h.1 q hq
    · rename_i hnlt
      push_neg at hnlt
      rw [List.pairwise_cons]
      refine ⟨?_, List.pairwise_cons.mpr h⟩
      intro q hq
      rcases List.mem_cons.mp hq with rfl | hq
      · exact hnlt
      · exact le_trans (h.1 q hq) hnlt

theorem length_sortDesc (l : List (Vec3 × ℝ)) : (sortDesc l).length = l.length := by
  induction l with
  | nil => rfl
  | cons a as ih => simp [sortDesc, length_insertDesc, ih]

theorem mem_sortDesc (q : Vec3 × ℝ) (l : List (Vec3 × ℝ)) :
    q ∈ sortDesc l ↔ q ∈ l := by
  induction l with
  | nil => simp [sortDesc]
  | cons a as ih =>
    simp [sortDesc, mem_insertDesc, ih]

theorem pairwise_sortDesc (l : List (Vec3 × ℝ)) :
    List.Pairwise (fun a b => b.2 ≤ a.2) (sortDesc l) := by
  induction l with
  | nil => simp [sortDesc]
  | cons a as ih => exact pairwise_insertDesc a _ ih

theorem rayFromU_z_nonneg (u1 u2 : ℝ) : 0 ≤ (rayFromU u1 u2).z :=
  Real.sqrt_nonneg _

theorem rayFromU_unit (u1 u2 : ℝ) (h0 : 0 ≤ u1) (h1 : u1 ≤ 1) :
    Vec3.length (rayFromU u1 u2) = 1 := by
  have hs : Real.sqrt u1 * Real.sqrt u1 = u1 := Real.mul_self_sqrt h0
  have hm : max 0 (1 - u1) = 1 - u1 := max_eq_right (by linarith)
  have hz : Real.sqrt (max 0 (1 - u1)) * Real.sqrt (max 0 (1 - u1)) = 1 - u1 := by
    rw [hm]
    exact Real.mul_self_sqrt (by linarith)
  have hcs : Real.sin (2 * Real.pi * u2) * Real.sin (2 * Real.pi * u2) +
      Real.cos (2 * Real.pi * u2) * Real.cos (2 * Real.pi * u2) = 1 := by
    have h := Real.sin_sq_add_cos_sq (2 * Real.pi * u2)
    rw [pow_two, pow_two] at h
    exact h
  have key : Vec3.dot (rayFromU u1 u2) (rayFromU u1 u2) = 1 := by
    simp only [rayFromU, Vec3.dot]
    calc Real.sqrt u1 * Real.cos (2 * Real.pi * u2) *
          (Real.sqrt u1 * Real.cos (2 * Real.pi * u2)) +
        Real.sqrt u1 * Real.sin (2 * Real.pi * u2) *
          (Real.sqrt u1 * Real.sin (2 * Real.pi * u2)) +
        Real.sqrt (max 0 (1 - u1)) * Real.sqrt (max 0 (1 - u1))
        = (Real.sqrt u1 * Real.sqrt u1) *
            (Real.sin (2 * Real.pi * u2) * Real.sin (2 * Real.pi * u2) +
             Real.cos (2 * Real.pi * u2) * Real.cos (2 * Real.pi * u2)) +
          Real.sqrt (max 0 (1 - u1)) * Real.sqrt (max 0 (1 - u1)) := by ring
      _ = u1 * 1 + (1 - u1) := by rw [hs, hz, hcs]
      _ = 1 := by ring
  unfold Vec3.length
  rw [key, Real.sqrt_one]

/-- C2: for every ray_count >= 1, the hemisphere sampler returns exactly ray_count unit
direction vectors of the form x = sqrt(u1)*cos(2*pi*u2), y = sqrt(u1)*sin(2*pi*u2),
z = sqrt(max(0, 1-u1)) with u1, u2 uniform draws in [0,1); every returned direction has
z >= 0, the stored key is the dot with the up axis (0,0,1), i.e. z, and the returned
sequence is sorted non-increasing by that key. -/
theorem C2_sampler_hemisphere {R : Type} (seedFn : ℕ → R) (randFn : R → ℝ × R)
    (count : ℕ) (s : R) (hcount : 1 ≤ count)
    (hrand : ∀ t : R, 0 ≤ (randFn t).1 ∧ (randFn t).1 < 1) :
    ((ray_randomizer seedFn randFn count s).1.length = count) ∧
    (∀ p ∈ (ray_randomizer seedFn randFn count s).1,
      (∃ u1 u2, 0 ≤ u1 ∧ u1 < 1 ∧ 0 ≤ u2 ∧ u2 < 1 ∧ p.1 = rayFromU u1 u2) ∧
      p.2 = p.1.z ∧ 0 ≤ p.1.z ∧ Vec3.length p.1 = 1) ∧
    List.Pairwise (fun a b => b.2 ≤ a.2) (ray_randomizer seedFn randFn count s).1 := by
  refine ⟨?_, ?_, ?_⟩
  · show (sortDesc (genPairs randFn count (seedFn 42)).1).length = count
    rw [length_sortDesc, genPairs_length]
  · intro p hp
    have hp2 : p ∈ (genPairs randFn count (seedFn 42)).1 := (mem_sortDesc p _).mp hp
    obtain ⟨u1, u2, hu1a, hu1b, hu2a, hu2b, hpe⟩ :=
      genPairs_mem randFn hrand count (seedFn 42) p hp2
    subst hpe
    refine ⟨⟨u1, u2, hu1a, hu1b, hu2a, hu2b, rfl⟩, vec3_dot_up _, rayFromU_z_nonneg u1 u2,
      rayFromU_unit u1 u2 hu1a (le_of_lt hu1b)⟩
  · exact pairwise_sortDesc _

theorem C2_sampler_hemisphere_witness :
    ((ray_randomizer unitSeed randHalf 1 ()).1.length = 1) ∧
    (∀ p ∈ (ray_randomizer unitSeed randHalf 1 ()).1,
      (∃ u1 u2, 0 ≤ u1 ∧ u1 < 1 ∧ 0 ≤ u2 ∧ u2 < 1 ∧ p.1 = rayFromU u1 u2) ∧
      p.2 = p.1.z ∧ 0 ≤ p.1.z ∧ Vec3.length p.1 = 1) ∧
    List.Pairwise (fun a b => b.2 ≤ a.2) (ray_randomizer unitSeed randHalf 1 ()).1 :=
  C2_sampler_hemisphere unitSeed randHalf 1 () (by norm_num)
    (fun t => by constructor <;> norm_num [randHalf])

/-- C3: calling the hemisphere sampler twice with the same ray_count yields bit-identical
output regardless of the generator state each call starts from, because the generator is
re-seeded with the fixed constant 42 at the start of every call: the sample list is a
pure function of ray_count. -/
theorem C3_sampler_determinism {R : Type} (seedFn : ℕ → R) (randFn : R → ℝ × R)
    (count : ℕ) (s1 s2 : R) :
    (ray_randomizer seedFn randFn count s1).1 =
      (ray_randomizer seedFn randFn count s2).1 := rfl

theorem firstBelow_some_lt_length (ds : List ℝ) (m : ℝ) (i : ℕ)
    (h : firstBelow ds m = some i) : i < ds.length := by
  induction ds generalizing i with
  | nil => simp [firstBelow] at h
  | cons d rest ih =>
    simp only [firstBelow] at h
    by_cases hd : d < m
    · rw [if_pos hd] at h
      injection h with h
      subst h
      simp
    · rw [if_neg hd] at h
      cases hfb : firstBelow rest m with
      | none => rw [hfb] at h; simp at h
      | some j =>
        rw [hfb] at h
        simp only [Option.map_some'] at h
        injection h with h
        subst h
        have := ih j hfb
        simp only [List.length_cons]
        omega

theorem firstBelow_before (ds : List ℝ) (m : ℝ) (i : ℕ)
    (h : firstBelow ds m = some i) :
    ∀ j d, j < i → ds.get? j = some d → ¬ d < m := by
  induction ds generalizing i with
  | nil => simp [firstBelow] at h
  | cons d0 rest ih =>
    simp only [firstBelow] at h
    by_cases hd : d0 < m
    · rw [if_pos hd] at h
      injection h with h
      subst h
      intro j d hj
      omega
    · rw [if_neg hd] at h
      cases hfb : firstBelow rest m with
      | none => rw [hfb] at h; simp at h
      | some k =>
        rw [hfb] at h
        simp only [Option.map_some'] at h
        injection h with h
        subst h
        intro j d hj hget
        cases j with
        | zero =>
          simp only [List.get?_cons_zero] at hget
          injection hget with hget
          subst hget
          exact hd
        | succ j0 =>
          simp only [List.get?_cons_succ] at hget
          exact ih k hfb j0 d (by omega) hget

theorem firstBelow_at (ds : List ℝ) (m : ℝ) (i : ℕ)
    (h : firstBelow ds m = some i) : ∃ d, ds.get? i = some d ∧ d < m := by
  induction ds generalizing i with
  | nil => simp [firstBelow] at h
  | cons d0 rest ih =>
    simp only [firstBelow] at h
    by_cases hd : d0 < m
    · rw [if_pos hd] at h
      injection h with h
      subst h
      exact ⟨d0, rfl, hd⟩
    · rw [if_neg hd] at h
      cases hfb : firstBelow rest m with
      | none => rw [hfb] at h; simp at h
      | some k =>
        rw [hfb] at h
        simp only [Option.map_some'] at h
        injection h with h
        subst h
        obtain ⟨d, hget, hdm⟩ := ih k hfb
        exact ⟨d, by simpa using hget, hdm⟩

theorem firstBelow_none (ds : List ℝ) (m : ℝ) (h : firstBelow ds m = none) :
    ∀ d ∈ ds, ¬ d < m := by
  induction ds with
  | nil => simp
  | cons d0 rest ih =>
    simp only [firstBelow] at h
    by_cases hd : d0 < m
    · rw [if_pos hd] at h
      simp at h
    · rw [if_neg hd] at h
      intro d hdm
      rcases List.mem_cons.mp hdm with rfl | hdm
      · exact hd
      · cases hfb : firstBelow rest m with
        | none => exact ih hfb d hdm
        | some k => rw [hfb] at h; simp at h

theorem localPass_congr (o1 o2 : Vec3 → Vec3 → ℝ → Except PyExc Bool)
    (pos : Vec3) (rot : Vec3 → Vec3) (dist c : ℝ) (rays : List Vec3) (occ : ℝ)
    (h : ∀ r ∈ rays, o1 pos (rot r) dist = o2 pos (rot r) dist) :
    localPass o1 pos rot dist c rays occ = localPass o2 pos rot dist c rays occ := by
  induction rays generalizing occ with
  | nil => rfl
  | cons r rs ih =>
    have h1 := h r (List.mem_cons_self _ _)
    have h2 : ∀ q ∈ rs, o1 pos (rot q) dist = o2 pos (rot q) dist :=
      fun q hq => h q (List.mem_cons_of_mem _ hq)
    cases ho : o2 pos (rot r) dist with
    | error e => simp only [localPass, h1, ho]
    | ok hit =>
      simp only [localPass, h1, ho]
      rw [ih _ h2]

theorem scenePass_congr (o1 o2 : Vec3 → Vec3 → ℝ → Except PyExc Bool)
    (pos : Vec3) (rot : Vec3 → Vec3) (dist c : ℝ) (pairs : List (Vec3 × Bool)) (scn : ℝ)
    (h : ∀ rb ∈ pairs, o1 pos (rot rb.1) dist = o2 pos (rot rb.1) dist) :
    scenePass o1 pos rot dist c pairs scn = scenePass o2 pos rot dist c pairs scn := by
  induction pairs generalizing scn with
  | nil => rfl
  | cons rb rs ih =>
    simp only [scenePass]
    split
    · exact ih scn (fun q hq => h q (List.mem_cons_of_mem _ hq))
    · have h1 := h rb (List.mem_cons_self _ _)
      rw [h1]
      cases o2 pos (rot rb.1) dist with
      | error e => rfl
      | ok hit => exact ih _ (fun q hq => h q (List.mem_cons_of_mem _ hq))

/-- C4: for every vertex, with first_hit_index the first position in the z-sorted sample
list whose stored up-dot is below the vertex's min_dot (and ray_count when no such
position exists), the occlusion value after the min_dot cut equals
1 - contribution * (ray_count - first_hit_index); every sample at or beyond that index is
skipped with no ray test (the per-vertex result only consults the local and scene oracles
on samples before the index), while only samples before it are ray-tested. -/
theorem C4_min_dot_cut (objRay : Vec3 → Vec3 → ℝ → Except PyExc (Option (Vec3 × Vec3)))
    (e1 e2 s1 s2 : Vec3 → Vec3 → ℝ → Except PyExc Bool) (rotApp : Vec3 → Vec3 → Vec3)
    (hemi : List (Vec3 × ℝ)) (raycount : ℕ) (contribution blendC dist : ℝ)
    (vd : VertexRec) (hlen : hemi.length = raycount) :
    (∀ j p, j < cutIdx hemi vd.minDot raycount → hemi.get? j = some p →
      vd.minDot ≤ p.2) ∧
    (∀ p, hemi.get? (cutIdx hemi vd.minDot raycount) = some p → p.2 < vd.minDot) ∧
    cutIdx hemi vd.minDot raycount ≤ raycount ∧
    occAfterCut contribution raycount (cutIdx hemi vd.minDot raycount) =
      1 - contribution *
        ((raycount : ℝ) - (cutIdx hemi vd.minDot raycount : ℝ)) ∧
    ((∀ pos r, r ∈ (hemi.take (cutIdx hemi vd.minDot raycount)).map Prod.fst →
        e1 pos (rotApp vd.noLocal r) dist = e2 pos (rotApp vd.noLocal r) dist) →
      (∀ pos r, r ∈ (hemi.take (cutIdx hemi vd.minDot raycount)).map Prod.fst →
        s1 pos (rotApp vd.noWorld r) dist = s2 pos (rotApp vd.noWorld r) dist) →
      vertexOcc objRay e1 s1 rotApp hemi raycount contribution blendC dist vd =
        vertexOcc objRay e2 s2 rotApp hemi raycount contribution blendC dist vd) := by
  refine ⟨?_, ?_, ?_, rfl, ?_⟩
  · intro j p hj hget
    unfold cutIdx at hj
    cases hfb : firstBelow (hemi.map Prod.snd) vd.minDot with
    | none =>
      rw [hfb] at hj
      simp only [Option.getD_none] at hj
      have hmem : p.2 ∈ hemi.map Prod.snd := by
        exact List.mem_map_of_mem Prod.snd (List.get?_mem hget)
      exact not_lt.mp (firstBelow_none _ _ hfb p.2 hmem)
    | some i =>
      rw [hfb] at hj
      simp only [Option.getD_some] at hj
      have hget2 : (hemi.map Prod.snd).get? j = some p.2 := by
        rw [List.get?_map, hget]
        rfl
      exact not_lt.mp (firstBelow_before _ _ i hfb j p.2 hj hget2)
  · intro p hget
    unfold cutIdx at hget
    cases hfb : firstBelow (hemi.map Prod.snd) vd.minDot with
    | none =>
      rw [hfb] at hget
      simp only [Option.getD_none] at hget
      have : hemi.get? raycount = none := List.get?_eq_none.mpr (le_of_eq hlen)
      rw [this] at hget
      exact absurd hget (by simp)
    | some i =>
      rw [hfb] at hget
      simp only [Option.getD_some] at hget
      obtain ⟨d, hgd, hdm⟩ := firstBelow_at _ _ i hfb
      rw [List.get?_map, hget] at hgd
      simp only [Option.map_some'] at hgd
      injection hgd with hgd
      rw [hgd]
      exact hdm
  · unfold cutIdx
    cases hfb : firstBelow (hemi.map Prod.snd) vd.minDot with
    | none => simp
    | some i =>
      simp only [Option.getD_some]
      have := firstBelow_some_lt_length _ _ i hfb
      rw [List.length_map, hlen] at this
      exact le_of_lt this
  · intro he hs
    unfold vertexOcc
    cases hpr : objRay vd.coLocal vd.noLocal dist with
    | error e => rfl
    | ok probe =>
      simp only []
      have hp2 : pass2 e1 rotApp vd (biasOf probe vd.coLocal vd.noLocal) dist contribution
          blendC ((hemi.take (cutIdx hemi vd.minDot raycount)).map Prod.fst)
          (occAfterCut contribution raycount (cutIdx hemi vd.minDot raycount)) =
        pass2 e2 rotApp vd (biasOf probe vd.coLocal vd.noLocal) dist contribution
          blendC ((hemi.take (cutIdx hemi vd.minDot raycount)).map Prod.fst)
          (occAfterCut contribution raycount (cutIdx hemi vd.minDot raycount)) := by
        unfold pass2
        split
        · exact localPass_congr e1 e2 _ _ dist contribution _ _ (fun r hr => he _ r hr)
        · rfl
      rw [hp2]
      cases hres : pass2 e2 rotApp vd (biasOf probe vd.coLocal vd.noLocal) dist
          contribution blendC ((hemi.take (cutIdx hemi vd.minDot raycount)).map Prod.fst)
          (occAfterCut contribution raycount (cutIdx hemi vd.minDot raycount)) with
      | error e => rfl
      | ok res =>
        have hsp : scenePass s1 (vd.coWorld + biasOf probe vd.coLocal vd.noLocal •
            vd.noWorld) (rotApp vd.noWorld) dist contribution
            (((hemi.take (cutIdx hemi vd.minDot raycount)).map Prod.fst).zip res.2)
            res.1 =
          scenePass s2 (vd.coWorld + biasOf probe vd.coLocal vd.noLocal •
            vd.noWorld) (rotApp vd.noWorld) dist contribution
            (((hemi.take (cutIdx hemi vd.minDot raycount)).map Prod.fst).zip res.2)
            res.1 := by
          apply scenePass_congr
          intro rb hrb
          exact hs _ rb.1 (List.mem_zip hrb).1
        dsimp only
        unfold pass3
        split
        · rw [hsp]
        · rfl

theorem C4_min_dot_cut_witness :
    (∀ j p, j < cutIdx hemi1 vd0.minDot 1 → hemi1.get? j = some p →
      vd0.minDot ≤ p.2) ∧
    (∀ p, hemi1.get? (cutIdx hemi1 vd0.minDot 1) = some p → p.2 < vd0.minDot) ∧
    cutIdx hemi1 vd0.minDot 1 ≤ 1 ∧
    occAfterCut 1 1 (cutIdx hemi1 vd0.minDot 1) =
      1 - 1 * (((1 : ℕ) : ℝ) - (cutIdx hemi1 vd0.minDot 1 : ℝ)) ∧
    ((∀ pos r, r ∈ (hemi1.take (cutIdx hemi1 vd0.minDot 1)).map Prod.fst →
        noHitB pos (rotId vd0.noLocal r) 10 = noHitB pos (rotId vd0.noLocal r) 10) →
      (∀ pos r, r ∈ (hemi1.take (cutIdx hemi1 vd0.minDot 1)).map Prod.fst →
        noHitB pos (rotId vd0.noWorld r) 10 = noHitB pos (rotId vd0.noWorld r) 10) →
      vertexOcc noHitRay noHitB noHitB rotId hemi1 1 1 0 10 vd0 =
        vertexOcc noHitRay noHitB noHitB rotId hemi1 1 1 0 10 vd0) :=
  C4_min_dot_cut noHitRay noHitB noHitB noHitB noHitB rotId hemi1 1 1 0 10 vd0 rfl

theorem clampBlend_nonneg (blend : ℝ) : 0 ≤ clampBlend blend := le_max_right _ _

theorem clampBlend_le_one (blend : ℝ) : clampBlend blend ≤ 1 :=
  max_le (min_le_right _ _) zero_le_one

theorem localPass_pure (f : Vec3 → Vec3 → ℝ → Bool)
    (oracle : Vec3 → Vec3 → ℝ → Except PyExc Bool)
    (he : ∀ a b c, oracle a b c = Except.ok (f a b c))
    (pos : Vec3) (rot : Vec3 → Vec3) (dist c : ℝ) (rays : List Vec3) (occ : ℝ) :
    localPass oracle pos rot dist c rays occ =
      Except.ok (occ - c * (rays.countP (fun r => f pos (rot r) dist) : ℕ),
        rays.map (fun r => f pos (rot r) dist)) := by
  induction rays generalizing occ with
  | nil => simp [localPass]
  | cons r rs ih =>
    simp only [localPass, he, ih, List.countP_cons, List.map_cons, Except.ok.injEq,
      Prod.mk.injEq]
    refine ⟨?_, trivial⟩
    split_ifs with hf
    · push_cast
      ring
    · push_cast
      ring

theorem scenePass_pure (g : Vec3 → Vec3 → ℝ → Bool)
    (oracle : Vec3 → Vec3 → ℝ → Except PyExc Bool)
    (hs : ∀ a b c, oracle a b c = Except.ok (g a b c))
    (pos : Vec3) (rot : Vec3 → Vec3) (dist c : ℝ) (pairs : List (Vec3 × Bool))
    (scn : ℝ) :
    scenePass oracle pos rot dist c pairs scn =
      Except.ok (scn -
        c * (pairs.countP (fun q => !q.2 && g pos (rot q.1) dist) : ℕ)) := by
  induction pairs generalizing scn with
  | nil => simp [scenePass]
  | cons q qs ih =>
    simp only [scenePass, hs, ih, List.countP_cons]
    by_cases hq : q.2 = true
    · rw [if_pos hq]
      simp [hq]
    · rw [if_neg hq]
      simp only [Bool.not_eq_true] at hq
      simp only [hq, Bool.not_false, Bool.true_and, Except.ok.injEq]
      split_ifs with hg
      · push_cast
        ring
      · push_cast
        ring

theorem countP_zip_map (l : List Vec3) (hf : Vec3 → Bool) (g : Vec3 → Vec3 → ℝ → Bool)
    (pos : Vec3) (rot : Vec3 → Vec3) (dist : ℝ) :
    (l.zip (l.map hf)).countP (fun q => !q.2 && g pos (rot q.1) dist) =
      l.countP (fun r => !(hf r) && g pos (rot r) dist) := by
  induction l with
  | nil => rfl
  | cons r rs ih => simp [List.zip_cons_cons, List.countP_cons, ih]

theorem replicate_eq_map_false (l : List Vec3) :
    List.replicate l.length false = l.map (fun _ => false) := by
  induction l with
  | nil => rfl
  | cons r rs ih => rw [List.length_cons, List.replicate_succ, List.map_cons, ih]

theorem vertexOcc_pure_eval (pr : Vec3 → Vec3 → ℝ → Option (Vec3 × Vec3))
    (f g : Vec3 → Vec3 → ℝ → Bool)
    (objRay : Vec3 → Vec3 → ℝ → Except PyExc (Option (Vec3 × Vec3)))
    (objEvalRay sceneRay : Vec3 → Vec3 → ℝ → Except PyExc Bool)
    (rotApp : Vec3 → Vec3 → Vec3) (hemi : List (Vec3 × ℝ)) (raycount : ℕ)
    (contribution b dist : ℝ) (vd : VertexRec)
    (hp : ∀ a d c, objRay a d c = Except.ok (pr a d c))
    (he : ∀ a d c, objEvalRay a d c = Except.ok (f a d c))
    (hs : ∀ a d c, sceneRay a d c = Except.ok (g a d c))
    (hb0 : 0 ≤ b) (hb1 : b ≤ 1) :
    vertexOcc objRay objEvalRay sceneRay rotApp hemi raycount contribution b dist vd =
      Except.ok (clamp01
        (specLocalOcc f rotApp hemi raycount contribution b dist vd
            (vd.coLocal +
              biasOf (pr vd.coLocal vd.noLocal dist) vd.coLocal vd.noLocal • vd.noLocal)
          * (1 - b) +
         specSceneOcc f g rotApp hemi raycount contribution b dist vd
            (vd.coLocal +
              biasOf (pr vd.coLocal vd.noLocal dist) vd.coLocal vd.noLocal • vd.noLocal)
            (vd.coWorld +
              biasOf (pr vd.coLocal vd.noLocal dist) vd.coLocal vd.noLocal • vd.noWorld)
          * b)) := by
  simp only [vertexOcc, hp]
  rcases lt_or_ge b 1 with hlt1 | hge1
  · have hpass2 : pass2 objEvalRay rotApp vd
        (biasOf (pr vd.coLocal vd.noLocal dist) vd.coLocal vd.noLocal) dist contribution b
        ((hemi.take (cutIdx hemi vd.minDot raycount)).map Prod.fst)
        (occAfterCut contribution raycount (cutIdx hemi vd.minDot raycount)) =
        Except.ok (occAfterCut contribution raycount (cutIdx hemi vd.minDot raycount) -
          contribution *
            (((hemi.take (cutIdx hemi vd.minDot raycount)).map Prod.fst).countP
              (fun r => f (vd.coLocal +
                biasOf (pr vd.coLocal vd.noLocal dist) vd.coLocal vd.noLocal • vd.noLocal)
                (rotApp vd.noLocal r) dist) : ℕ),
          ((hemi.take (cutIdx hemi vd.minDot raycount)).map Prod.fst).map
            (fun r => f (vd.coLocal +
              biasOf (pr vd.coLocal vd.noLocal dist) vd.coLocal vd.noLocal • vd.noLocal)
              (rotApp vd.noLocal r) dist)) := by
      unfold pass2
      rw [if_pos hlt1]
      exact localPass_pure f objEvalRay he _ _ dist contribution _ _
    rw [hpass2]
    dsimp only
    have hfun : specLocalHit f rotApp
        (vd.coLocal + biasOf (pr vd.coLocal vd.noLocal dist) vd.coLocal vd.noLocal •
          vd.noLocal) vd.noLocal b dist =
        fun r => f (vd.coLocal + biasOf (pr vd.coLocal vd.noLocal dist) vd.coLocal
          vd.noLocal • vd.noLocal) (rotApp vd.noLocal r) dist :=
      funext fun r => by
        unfold specLocalHit
        rw [if_pos hlt1]
    rcases lt_or_ge 0 b with hgt0 | hle0
    · unfold pass3
      rw [if_pos hgt0]
      rw [scenePass_pure g sceneRay hs]
      dsimp only
      rw [countP_zip_map]
      unfold specSceneOcc specLocalOcc
      rw [hfun]
    · have hb : b = 0 := le_antisymm hle0 hb0
      subst hb
      unfold pass3
      rw [if_neg (lt_irrefl (0 : ℝ))]
      refine congrArg Except.ok ?_
      refine congrArg clamp01 ?_
      unfold specSceneOcc specLocalOcc
      rw [hfun]
      ring
  · have hb : b = 1 := le_antisymm hb1 hge1
    subst hb
    have hpass2 : pass2 objEvalRay rotApp vd
        (biasOf (pr vd.coLocal vd.noLocal dist) vd.coLocal vd.noLocal) dist contribution 1
        ((hemi.take (cutIdx hemi vd.minDot raycount)).map Prod.fst)
        (occAfterCut contribution raycount (cutIdx hemi vd.minDot raycount)) =
        Except.ok (occAfterCut contribution raycount (cutIdx hemi vd.minDot raycount),
          List.replicate
            ((hemi.take (cutIdx hemi vd.minDot raycount)).map Prod.fst).length false) := by
      unfold pass2
      rw [if_neg (lt_irrefl 1)]
    rw [hpass2]
    dsimp only
    unfold pass3
    rw [if_pos (zero_lt_one : (0 : ℝ) < 1)]
    rw [replicate_eq_map_false]
    rw [scenePass_pure g sceneRay hs]
    dsimp only
    rw [countP_zip_map]
    refine congrArg Except.ok ?_
    refine congrArg clamp01 ?_
    have hfun1 : specLocalHit f rotApp
        (vd.coLocal + biasOf (pr vd.coLocal vd.noLocal dist) vd.coLocal vd.noLocal •
          vd.noLocal) vd.noLocal (1 : ℝ) dist = fun _ => false :=
      funext fun r => by
        unfold specLocalHit
        rw [if_neg (lt_irrefl (1 : ℝ))]
    unfold specSceneOcc specLocalOcc
    rw [hfun1]
    simp only [Bool.not_false, Bool.true_and, List.countP_false, Function.const_apply,
      Nat.cast_zero]
    ring

/-- C5: for every vertex processed by the main estimator with pure (non-raising) oracles,
the final stored value equals
local_occlusion * (1 - blend) + scene_occlusion * blend clamped to [0,1], where blend is
the blend factor clamped to [0,1], local_occlusion is the accumulator after the cut and
the local pass, and the scene-occlusion accumulator is seeded from the local-occlusion
value and deducts one contribution per non-locally-hit sample whose scene ray-cast reports
a hit. -/
theorem C5_blend_formula (pr : Vec3 → Vec3 → ℝ → Option (Vec3 × Vec3))
    (f g : Vec3 → Vec3 → ℝ → Bool)
    (objRay : Vec3 → Vec3 → ℝ → Except PyExc (Option (Vec3 × Vec3)))
    (objEvalRay sceneRay : Vec3 → Vec3 → ℝ → Except PyExc Bool)
    (rotApp : Vec3 → Vec3 → Vec3) (hemi : List (Vec3 × ℝ)) (raycount : ℕ)
    (contribution blend dist : ℝ) (vd : VertexRec)
    (hp : ∀ a d c, objRay a d c = Except.ok (pr a d c))
    (he : ∀ a d c, objEvalRay a d c = Except.ok (f a d c))
    (hs : ∀ a d c, sceneRay a d c = Except.ok (g a d c)) :
    vertexOcc objRay objEvalRay sceneRay rotApp hemi raycount contribution
        (clampBlend blend) dist vd =
      Except.ok (clamp01
        (specLocalOcc f rotApp hemi raycount contribution (clampBlend blend) dist vd
            (vd.coLocal +
              biasOf (pr vd.coLocal vd.noLocal dist) vd.coLocal vd.noLocal • vd.noLocal)
          * (1 - clampBlend blend) +
         specSceneOcc f g rotApp hemi raycount contribution (clampBlend blend) dist vd
            (vd.coLocal +
              biasOf (pr vd.coLocal vd.noLocal dist) vd.coLocal vd.noLocal • vd.noLocal)
            (vd.coWorld +
              biasOf (pr vd.coLocal vd.noLocal dist) vd.coLocal vd.noLocal • vd.noWorld)
          * clampBlend blend)) :=
  vertexOcc_pure_eval pr f g objRay objEvalRay sceneRay rotApp hemi raycount contribution
    (clampBlend blend) dist vd hp he hs (clampBlend_nonneg blend) (clampBlend_le_one blend)

theorem C5_blend_formula_witness :
    vertexOcc noHitRay noHitB noHitB rotId hemi1 1 1 (clampBlend (1 / 2)) 10 vd0 =
      Except.ok (clamp01
        (specLocalOcc (fun _ _ _ => false) rotId hemi1 1 1 (clampBlend (1 / 2)) 10 vd0
            (vd0.coLocal + biasOf none vd0.coLocal vd0.noLocal • vd0.noLocal)
          * (1 - clampBlend (1 / 2)) +
         specSceneOcc (fun _ _ _ => false) (fun _ _ _ => false) rotId hemi1 1 1
            (clampBlend (1 / 2)) 10 vd0
            (vd0.coLocal + biasOf none vd0.coLocal vd0.noLocal • vd0.noLocal)
            (vd0.coWorld + biasOf none vd0.coLocal vd0.noLocal • vd0.noWorld)
          * clampBlend (1 / 2))) :=
  C5_blend_formula (fun _ _ _ => none) (fun _ _ _ => false) (fun _ _ _ => false)
    noHitRay noHitB noHitB rotId hemi1 1 1 (1 / 2) 10 vd0
    (fun _ _ _ => rfl) (fun _ _ _ => rfl) (fun _ _ _ => rfl)

theorem Vec3.ext_xyz (a b : Vec3) (hx : a.x = b.x) (hy : a.y = b.y) (hz : a.z = b.z) :
    a = b := by
  cases a
  cases b
  rw [Vec3.mk.injEq]
  exact ⟨hx, hy, hz⟩

theorem Vec3.add_x (a b : Vec3) : (a + b).x = a.x + b.x := rfl

theorem Vec3.add_y (a b : Vec3) : (a + b).y = a.y + b.y := rfl

theorem Vec3.add_z (a b : Vec3) : (a + b).z = a.z + b.z := rfl

theorem Vec3.sub_x (a b : Vec3) : (a - b).x = a.x - b.x := rfl

theorem Vec3.sub_y (a b : Vec3) : (a - b).y = a.y - b.y := rfl

theorem Vec3.sub_z (a b : Vec3) : (a - b).z = a.z - b.z := rfl

theorem app_sub_app (M : XForm) (p n : Vec3) :
    M.app (p + n) - M.app p = M.lin.mulVec n := by
  apply Vec3.ext_xyz <;>
    simp only [XForm.app, Mat3.mulVec, Vec3.dot, Vec3.add_x, Vec3.add_y, Vec3.add_z,
      Vec3.sub_x, Vec3.sub_y, Vec3.sub_z] <;>
    ring

theorem vertex_data_dict_get? (M : XForm) (verts : List (Vec3 × Vec3))
    (edges : List (ℕ × ℕ)) (v : ℕ) (co no : Vec3) (h : verts.get? v = some (co, no)) :
    (vertex_data_dict M verts edges).get? v = some
      { coLocal := co, noLocal := no, coWorld := M.app co,
        noWorld := Vec3.normalize (M.app (co + no) - M.app co),
        minDot := listMin (linkDots verts edges v co no) } := by
  unfold vertex_data_dict
  rw [List.get?_map, List.get?_enum, h]
  rfl

theorem vertex_data_dict_length (M : XForm) (verts : List (Vec3 × Vec3))
    (edges : List (ℕ × ℕ)) : (vertex_data_dict M verts edges).length = verts.length := by
  unfold vertex_data_dict
  rw [List.length_map, List.enum_length]

/-- C8: for every vertex, the geometry cache computes the world-space normal as
normalize(M*(p + n) - M*p), transforming the offset point and subtracting the transformed
position, then normalizing; this equals the normalized linear part applied to the local
normal (the translation cancels). -/
theorem C8_world_normal (M : XForm) (verts : List (Vec3 × Vec3)) (edges : List (ℕ × ℕ))
    (v : ℕ) (co no : Vec3) (h : verts.get? v = some (co, no)) :
    ∃ rec, (vertex_data_dict M verts edges).get? v = some rec ∧
      rec.coLocal = co ∧ rec.noLocal = no ∧
      rec.noWorld = Vec3.normalize (M.app (co + no) - M.app co) ∧
      rec.noWorld = Vec3.normalize (M.lin.mulVec no) :=
  ⟨_, vertex_data_dict_get? M verts edges v co no h, rfl, rfl, rfl, by
    show Vec3.normalize (M.app (co + no) - M.app co) = Vec3.normalize (M.lin.mulVec no)
    rw [app_sub_app]⟩

theorem C8_world_normal_witness :
    ∃ rec, (vertex_data_dict idX [(⟨0, 0, 0⟩, ⟨0, 0, 1⟩)] []).get? 0 = some rec ∧
      rec.coLocal = ⟨0, 0, 0⟩ ∧ rec.noLocal = ⟨0, 0, 1⟩ ∧
      rec.noWorld = Vec3.normalize (idX.app (⟨0, 0, 0⟩ + ⟨0, 0, 1⟩) - idX.app ⟨0, 0, 0⟩) ∧
      rec.noWorld = Vec3.normalize (idX.lin.mulVec ⟨0, 0, 1⟩) :=
  C8_world_normal idX [(⟨0, 0, 0⟩, ⟨0, 0, 1⟩)] [] 0 ⟨0, 0, 0⟩ ⟨0, 0, 1⟩ rfl

theorem length_sliceSet4 {α : Type} [One α] (xs : List α) (l : ℕ) (v : α)
    (h : 4 * l + 4 ≤ xs.length) : (sliceSet4 xs l v).length = xs.length := by
  unfold sliceSet4
  rw [List.length_append, List.length_append, List.length_take, List.length_drop]
  have h1 : 4 * l ⊓ xs.length = 4 * l := min_eq_left (by omega)
  rw [h1]
  simp only [List.length_cons, List.length_nil]
  omega

theorem sliceSet4_get?_lt {α : Type} [One α] (xs : List α) (l : ℕ) (v : α) (i : ℕ)
    (hlen : 4 * l ≤ xs.length) (hi : i < 4 * l) :
    (sliceSet4 xs l v).get? i = xs.get? i := by
  unfold sliceSet4
  rw [List.get?_append (by rw [List.length_take]; exact lt_min hi (lt_of_lt_of_le hi hlen)),
    List.get?_take hi]

theorem sliceSet4_get?_slot {α : Type} [One α] (xs : List α) (l : ℕ) (v : α) (k : ℕ)
    (hlen : 4 * l ≤ xs.length) (hk : k < 4) :
    (sliceSet4 xs l v).get? (4 * l + k) = ([v, v, v, 1] : List α).get? k := by
  unfold sliceSet4
  rw [List.get?_append_right (by rw [List.length_take]; omega)]
  rw [List.length_take, min_eq_left hlen, Nat.add_sub_cancel_left]
  rw [List.get?_append (by simp only [List.length_cons, List.length_nil]; omega)]

theorem sliceSet4_get?_ge {α : Type} [One α] (xs : List α) (l : ℕ) (v : α) (i : ℕ)
    (hlen : 4 * l ≤ xs.length) (hi : 4 * l + 4 ≤ i) :
    (sliceSet4 xs l v).get? i = xs.get? i := by
  unfold sliceSet4
  rw [List.get?_append_right (by rw [List.length_take]; omega)]
  rw [List.length_take, min_eq_left hlen]
  rw [List.get?_append_right (by simp only [List.length_cons, List.length_nil]; omega)]
  simp only [List.length_cons, List.length_nil]
  rw [List.get?_drop]
  congr 1
  omega

theorem foldl_writeFace_flatten {α : Type} [One α] (occ : ℕ → α)
    (polys : List (List (ℕ × ℕ))) (init : List α) :
    polys.foldl (writeFace occ) init =
      polys.flatten.foldl (fun cs p => sliceSet4 cs p.2 (occ p.1)) init := by
  induction polys generalizing init with
  | nil => rfl
  | cons f fs ih =>
    rw [List.foldl_cons, ih, List.flatten_cons, List.foldl_append]
    rfl

theorem length_initColors {α : Type} [Zero α] [One α] (n : ℕ) :
    (initColors (α := α) n).length = 4 * n := by
  unfold initColors
  induction n with
  | zero => rfl
  | succ k ih =>
    rw [List.replicate_succ, List.flatten_cons, List.length_append, ih]
    simp only [List.length_cons, List.length_nil]
    omega

theorem length_foldl_sliceSet4 {α : Type} [One α] (occ : ℕ → α) (ws : List (ℕ × ℕ))
    (cs : List α) (N : ℕ) (hcs : cs.length = 4 * N) (hb : ∀ p ∈ ws, p.2 < N) :
    (ws.foldl (fun cs p => sliceSet4 cs p.2 (occ p.1)) cs).length = 4 * N := by
  induction ws generalizing cs with
  | nil => exact hcs
  | cons w rest ih =>
    rw [List.foldl_cons]
    apply ih
    · rw [length_sliceSet4]
      · exact hcs
      · have := hb w (List.mem_cons_self _ _)
        omega
    · exact fun p hp => hb p (List.mem_cons_of_mem _ hp)

theorem foldl_sliceSet4_get?_other {α : Type} [One α] (occ : ℕ → α) (ws : List (ℕ × ℕ))
    (cs : List α) (N l : ℕ) (hcs : cs.length = 4 * N) (hb : ∀ p ∈ ws, p.2 < N)
    (hl : ∀ p ∈ ws, p.2 ≠ l) (k : ℕ) (hk : k < 4) :
    (ws.foldl (fun cs p => sliceSet4 cs p.2 (occ p.1)) cs).get? (4 * l + k) =
      cs.get? (4 * l + k) := by
  induction ws generalizing cs with
  | nil => rfl
  | cons w rest ih =>
    have hw := hb w (List.mem_cons_self _ _)
    have hwl := hl w (List.mem_cons_self _ _)
    rw [List.foldl_cons]
    rw [ih _ (by rw [length_sliceSet4 _ _ _ (by omega)]; exact hcs)
      (fun p hp => hb p (List.mem_cons_of_mem _ hp))
      (fun p hp => hl p (List.mem_cons_of_mem _ hp))]
    rcases lt_or_gt_of_ne hwl with hlt | hgt
    · exact sliceSet4_get?_ge cs w.2 (occ w.1) (4 * l + k) (by omega) (by omega)
    · exact sliceSet4_get?_lt cs w.2 (occ w.1) (4 * l + k) (by omega) (by omega)

theorem foldl_sliceSet4_get?_written {α : Type} [One α] (occ : ℕ → α)
    (ws : List (ℕ × ℕ)) (cs : List α) (N : ℕ) (hcs : cs.length = 4 * N)
    (hb : ∀ p ∈ ws, p.2 < N) (hnd : (ws.map Prod.snd).Nodup) (vi li : ℕ)
    (hmem : (vi, li) ∈ ws) (k : ℕ) (hk : k < 4) :
    (ws.foldl (fun cs p => sliceSet4 cs p.2 (occ p.1)) cs).get? (4 * li + k) =
      ([occ vi, occ vi, occ vi, 1] : List α).get? k := by
  induction ws generalizing cs with
  | nil => cases hmem
  | cons w rest ih =>
    have hw := hb w (List.mem_cons_self _ _)
    rw [List.map_cons, List.nodup_cons] at hnd
    rcases List.mem_cons.mp hmem with heq | hmem2
    · subst heq
      rw [List.foldl_cons]
      rw [foldl_sliceSet4_get?_other occ rest _ N li
        (by rw [length_sliceSet4 _ _ _ (by omega)]; exact hcs)
        (fun p hp => hb p (List.mem_cons_of_mem _ hp))
        (fun p hp hpl => by
          have h2 : p.2 ∈ List.map Prod.snd rest := List.mem_map_of_mem Prod.snd hp
          rw [hpl] at h2
          exact hnd.1 h2)
        k hk]
      exact sliceSet4_get?_slot cs li (occ vi) k (by omega) hk
    · rw [List.foldl_cons]
      exact ih _ (by rw [length_sliceSet4 _ _ _ (by omega)]; exact hcs)
        (fun p hp => hb p (List.mem_cons_of_mem _ hp)) hnd.2 hmem2

theorem length_buildLoopColors {α : Type} [Zero α] [One α] (N : ℕ)
    (polys : List (List (ℕ × ℕ))) (occ : ℕ → α)
    (hb : ∀ f ∈ polys, ∀ p ∈ f, p.2 < N) :
    (buildLoopColors N polys occ).length = 4 * N := by
  unfold buildLoopColors
  rw [foldl_writeFace_flatten]
  refine length_foldl_sliceSet4 occ _ _ N (length_initColors N) ?_
  intro p hp
  obtain ⟨f, hf, hpf⟩ := List.mem_flatten.mp hp
  exact hb f hf p hpf

/-- C9: the color writer visits every face and every (vertex, corner) pair of that face
and writes the vertex's scalar v into that corner's four slots as (v, v, v, 1.0); in
particular, on a mesh with the single face (0,1,2) at corners (0,1,2) and occlusion
{0: 1.0, 1: 0.5, 2: 0.0} the buffer is [1,1,1,1, 0.5,0.5,0.5,1, 0,0,0,1] in corner
order. -/
theorem C9_color_writer :
    (∀ {α : Type} [Zero α] [One α] (loopCount : ℕ) (polys : List (List (ℕ × ℕ)))
      (occ : ℕ → α) (face : List (ℕ × ℕ)) (vi li k : ℕ),
      face ∈ polys → (vi, li) ∈ face → (∀ f ∈ polys, ∀ p ∈ f, p.2 < loopCount) →
      (polys.flatten.map Prod.snd).Nodup → k < 4 →
      (buildLoopColors loopCount polys occ).get? (4 * li + k) =
        ([occ vi, occ vi, occ vi, 1] : List α).get? k) ∧
    buildLoopColors (α := ℚ) 3 [[(0, 0), (1, 1), (2, 2)]] occQ =
      [1, 1, 1, 1, 1 / 2, 1 / 2, 1 / 2, 1, 0, 0, 0, 1] := by
  constructor
  · intro α _ _ loopCount polys occ face vi li k hface hmem hb hnd hk
    unfold buildLoopColors
    rw [foldl_writeFace_flatten]
    refine foldl_sliceSet4_get?_written occ _ _ loopCount (length_initColors loopCount)
      ?_ hnd vi li (List.mem_flatten.mpr ⟨face, hface, hmem⟩) k hk
    intro p hp
    obtain ⟨f, hf, hpf⟩ := List.mem_flatten.mp hp
    exact hb f hf p hpf
  · simp [buildLoopColors, writeFace, initColors, sliceSet4, occQ, List.replicate]

theorem C9_color_writer_witness :
    (buildLoopColors (α := ℚ) 3 [[(0, 0), (1, 1), (2, 2)]] occQ).get? (4 * 1 + 0) =
      ([occQ 1, occQ 1, occQ 1, 1] : List ℚ).get? 0 :=
  C9_color_writer.1 3 [[(0, 0), (1, 1), (2, 2)]] occQ [(0, 0), (1, 1), (2, 2)] 1 1 0
    (by decide) (by decide) (by decide) (by decide) (by decide)

theorem Vec3.smul_x (c : ℝ) (v : Vec3) : (c • v).x = c * v.x := rfl

theorem Vec3.smul_y (c : ℝ) (v : Vec3) : (c • v).y = c * v.y := rfl

theorem Vec3.smul_z (c : ℝ) (v : Vec3) : (c • v).z = c * v.z := rfl

theorem idX_app (v : Vec3) : idX.app v = v := by
  apply Vec3.ext_xyz <;>
    simp [idX, idMat3, XForm.app, Mat3.mulVec, Vec3.dot, Vec3.add_x, Vec3.add_y,
      Vec3.add_z]

theorem add_sub_self_vec (a b : Vec3) : (a + b) - a = b := by
  apply Vec3.ext_xyz <;>
    simp [Vec3.add_x, Vec3.add_y, Vec3.add_z, Vec3.sub_x, Vec3.sub_y, Vec3.sub_z]

theorem normalize_up : Vec3.normalize ⟨0, 0, 1⟩ = ⟨0, 0, 1⟩ := by
  unfold Vec3.normalize Vec3.length
  have h : Vec3.dot ⟨0, 0, 1⟩ ⟨0, 0, 1⟩ = 1 := by simp [Vec3.dot]
  rw [h, Real.sqrt_one]
  rw [if_neg one_ne_zero]
  apply Vec3.ext_xyz <;>
    simp [Vec3.smul_x, Vec3.smul_y, Vec3.smul_z]

theorem dot_up_left (w : Vec3) : Vec3.dot ⟨0, 0, 1⟩ w = w.z := by
  simp [Vec3.dot]

theorem normalize_z_zero (v : Vec3) (h : v.z = 0) : (Vec3.normalize v).z = 0 := by
  unfold Vec3.normalize
  split
  · exact h
  · rw [Vec3.smul_z, h, mul_zero]

theorem dot_up_normalize_planar (a b : Vec3) (ha : a.z = 0) (hb : b.z = 0) :
    Vec3.dot (Vec3.normalize ⟨0, 0, 1⟩) (Vec3.normalize (a - b)) = 0 := by
  rw [normalize_up, dot_up_left, normalize_z_zero]
  rw [Vec3.sub_z, ha, hb, sub_zero]

theorem minDot_tri0 :
    listMin (linkDots triMesh.verts triMesh.edges 0 ⟨0, 0, 0⟩ ⟨0, 0, 1⟩) = 0 := by
  have h1 : linkNeighbors triMesh.edges 0 = [1, 2] := by decide
  unfold linkDots
  rw [h1]
  have h2 : triMesh.verts.get? 1 = some (⟨1, 0, 0⟩, ⟨0, 0, 1⟩) := rfl
  have h3 : triMesh.verts.get? 2 = some (⟨0, 1, 0⟩, ⟨0, 0, 1⟩) := rfl
  simp only [List.filterMap_cons, List.filterMap_nil, h2, h3, Option.map_some']
  rw [dot_up_normalize_planar ⟨1, 0, 0⟩ ⟨0, 0, 0⟩ rfl rfl,
    dot_up_normalize_planar ⟨0, 1, 0⟩ ⟨0, 0, 0⟩ rfl rfl]
  simp [listMin]

theorem minDot_tri1 :
    listMin (linkDots triMesh.verts triMesh.edges 1 ⟨1, 0, 0⟩ ⟨0, 0, 1⟩) = 0 := by
  have h1 : linkNeighbors triMesh.edges 1 = [0, 2] := by decide
  unfold linkDots
  rw [h1]
  have h2 : triMesh.verts.get? 0 = some (⟨0, 0, 0⟩, ⟨0, 0, 1⟩) := rfl
  have h3 : triMesh.verts.get? 2 = some (⟨0, 1, 0⟩, ⟨0, 0, 1⟩) := rfl
  simp only [List.filterMap_cons, List.filterMap_nil, h2, h3, Option.map_some']
  rw [dot_up_normalize_planar ⟨0, 0, 0⟩ ⟨1, 0, 0⟩ rfl rfl,
    dot_up_normalize_planar ⟨0, 1, 0⟩ ⟨1, 0, 0⟩ rfl rfl]
  simp [listMin]

theorem minDot_tri2 :
    listMin (linkDots triMesh.verts triMesh.edges 2 ⟨0, 1, 0⟩ ⟨0, 0, 1⟩) = 0 := by
  have h1 : linkNeighbors triMesh.edges 2 = [1, 0] := by decide
  unfold linkDots
  rw [h1]
  have h2 : triMesh.verts.get? 1 = some (⟨1, 0, 0⟩, ⟨0, 0, 1⟩) := rfl
  have h3 : triMesh.verts.get? 0 = some (⟨0, 0, 0⟩, ⟨0, 0, 1⟩) := rfl
  simp only [List.filterMap_cons, List.filterMap_nil, h2, h3, Option.map_some']
  rw [dot_up_normalize_planar ⟨1, 0, 0⟩ ⟨0, 1, 0⟩ rfl rfl,
    dot_up_normalize_planar ⟨0, 0, 0⟩ ⟨0, 1, 0⟩ rfl rfl]
  simp [listMin]

theorem vdd_tri :
    vertex_data_dict triMesh.M triMesh.verts triMesh.edges = [vd0, vd1, vd2] := by
  have e0 : triMesh.verts.enum =
      [(0, (⟨0, 0, 0⟩, ⟨0, 0, 1⟩)), (1, (⟨1, 0, 0⟩, ⟨0, 0, 1⟩)),
       (2, (⟨0, 1, 0⟩, ⟨0, 0, 1⟩))] := rfl
  have hM : triMesh.M = idX := rfl
  unfold vertex_data_dict
  rw [e0, hM]
  simp only [List.map_cons, List.map_nil]
  norm_num [vd0, vd1, vd2, VertexRec.mk.injEq, idX_app, add_sub_self_vec, normalize_up,
    minDot_tri0, minDot_tri1, minDot_tri2]

theorem rayFromU_zero : rayFromU 0 0 = ⟨0, 0, 1⟩ := by
  unfold rayFromU
  apply Vec3.ext_xyz
  · show Real.sqrt 0 * Real.cos (2 * Real.pi * 0) = 0
    rw [Real.sqrt_zero, zero_mul]
  · show Real.sqrt 0 * Real.sin (2 * Real.pi * 0) = 0
    rw [Real.sqrt_zero, zero_mul]
  · show Real.sqrt (max 0 (1 - 0)) = 1
    norm_num

theorem hemi_eval : (ray_randomizer unitSeed rand0 1 ()).1 = hemi1 := by
  show sortDesc [(rayFromU 0 0, Vec3.dot (rayFromU 0 0) upAxis)] = hemi1
  rw [rayFromU_zero, vec3_dot_up]
  rfl

theorem vertexOcc_noHit (vd : VertexRec) (hm : vd.minDot ≤ 1) (dist : ℝ) :
    vertexOcc noHitRay noHitB noHitB rotId hemi1 1 1 0 dist vd = Except.ok 1 := by
  have h := vertexOcc_pure_eval (fun _ _ _ => none) (fun _ _ _ => false)
    (fun _ _ _ => false) noHitRay noHitB noHitB rotId hemi1 1 1 0 dist vd
    (fun _ _ _ => rfl) (fun _ _ _ => rfl) (fun _ _ _ => rfl) le_rfl zero_le_one
  rw [h]
  have hcut : cutIdx hemi1 vd.minDot 1 = 1 := by
    unfold cutIdx
    have hmap : hemi1.map Prod.snd = [1] := rfl
    rw [hmap]
    unfold firstBelow
    rw [if_neg (not_lt.mpr hm)]
    rfl
  refine congrArg Except.ok ?_
  unfold specSceneOcc specLocalOcc specLocalHit occAfterCut
  rw [hcut]
  norm_num [hemi1, clamp01, List.countP_cons, List.take_succ_cons, List.take_zero,
    List.map_cons, List.map_nil, ite_self]

theorem occlusion_eval (gp : Bool) :
    occlusion_list unitSeed rand0 noHitRay noHitB noHitB rotId triMesh 1 (-1) 10 gp () =
      Except.ok (some [1, 1, 1, 1, 1, 1, 1, 1, 1, 1, 1, 1]) := by
  have hclamp : clampBlend (-1) = 0 := by
    unfold clampBlend
    norm_num
  have hcontrib : 1 / ((1 : ℕ) : ℝ) = 1 := by norm_num
  have hvl : vertLoop noHitRay noHitB noHitB rotId hemi1 1 1 0 10 [vd0, vd1, vd2] =
      Except.ok [1, 1, 1] := by
    simp only [vertLoop, vertexOcc_noHit vd0 (by norm_num [vd0]) 10,
      vertexOcc_noHit vd1 (by norm_num [vd1]) 10,
      vertexOcc_noHit vd2 (by norm_num [vd2]) 10]
  simp only [occlusion_list]
  rw [if_neg one_ne_zero]
  rw [vdd_tri]
  rw [if_neg (by simp : ¬([vd0, vd1, vd2] : List VertexRec) = [])]
  rw [hemi_eval, hclamp, hcontrib, hvl]
  rfl

theorem update_one (i : ℕ) :
    Function.update (fun _ : ℕ => (1 : ℝ)) i 1 = fun _ => 1 :=
  funext fun j => by
    rw [Function.update_apply]
    split <;> rfl

theorem geonode_eval :
    calculate_geonode_ao rand0 noHitB triMesh 0 10 false () =
      Except.ok [1, 1, 1, 1, 1, 1, 1, 1, 1, 1, 1, 1] := by
  have hc1 : clamp01 1 = 1 := by
    unfold clamp01
    norm_num
  have hverts : triMesh.verts =
      [(⟨0, 0, 0⟩, ⟨0, 0, 1⟩), (⟨1, 0, 0⟩, ⟨0, 0, 1⟩), (⟨0, 1, 0⟩, ⟨0, 0, 1⟩)] := rfl
  have hgvl : geoVertLoop rand0 noHitB triMesh.M 0 10 false triMesh.verts 0
      (fun _ => 1) () = Except.ok ((fun _ => 1 : ℕ → ℝ), ()) := by
    rw [hverts]
    simp only [geoVertLoop, geoRayLoop, Bool.false_eq_true, false_and, if_false, hc1,
      update_one]
  unfold calculate_geonode_ao
  rw [hgvl]
  rfl

theorem length_geoFaceWrite (vertAO : ℕ → ℝ) (cs : List ℝ) (pairs : List (ℕ × ℕ)) :
    (geoFaceWrite vertAO cs pairs).length = cs.length := by
  induction pairs generalizing cs with
  | nil => rfl
  | cons p ps ih =>
    have step : geoFaceWrite vertAO cs (p :: ps) =
        geoFaceWrite vertAO ((((cs.set (p.2 * 4) (vertAO p.1)).set (p.2 * 4 + 1)
          (vertAO p.1)).set (p.2 * 4 + 2) (vertAO p.1)).set (p.2 * 4 + 3) 1) ps := rfl
    rw [step, ih]
    simp [List.length_set]

theorem length_geo_foldl (vertAO : ℕ → ℝ) (polys : List (List (ℕ × ℕ))) (cs : List ℝ) :
    (polys.foldl (geoFaceWrite vertAO) cs).length = cs.length := by
  induction polys generalizing cs with
  | nil => rfl
  | cons f fs ih => rw [List.foldl_cons, ih, length_geoFaceWrite]

theorem occlusion_list_throw {R : Type} (seedFn : ℕ → R) (randFn : R → ℝ × R)
    (e : PyExc) (objRay : Vec3 → Vec3 → ℝ → Except PyExc (Option (Vec3 × Vec3)))
    (oE oS : Vec3 → Vec3 → ℝ → Except PyExc Bool) (rotApp : Vec3 → Vec3 → Vec3)
    (m : MeshData) (raycount : ℕ) (blend dist : ℝ) (gp : Bool) (s : R)
    (ho : ∀ a d c, objRay a d c = Except.error e) (hm : m.verts ≠ [])
    (h0 : raycount ≠ 0) :
    occlusion_list seedFn randFn objRay oE oS rotApp m raycount blend dist gp s =
      Except.error e := by
  simp only [occlusion_list]
  rw [if_neg h0]
  have hne : vertex_data_dict m.M m.verts m.edges ≠ [] := by
    intro hnil
    apply hm
    have hlen := vertex_data_dict_length m.M m.verts m.edges
    rw [hnil] at hlen
    exact List.eq_nil_of_length_eq_zero hlen.symm
  rw [if_neg hne]
  obtain ⟨v, vs, hcons⟩ := List.exists_cons_of_ne_nil hne
  rw [hcons]
  simp only [vertLoop, vertexOcc, ho]

/-- C1: with the ground-plane option enabled, the temporary occluder is removed only when
occlusion_list returns normally; when the estimator raises mid-bake, the per-object
exception handler records the failure without running the removal, so the plane is leaked
into the scene (second component true = plane still present), while a completed bake does
remove it. -/
theorem C1_ground_plane_leak :
    (objectBake true (occlusion_list unitSeed rand0 throwRay noHitB noHitB rotId triMesh
      1 (1 / 2) 10 true ()) triMesh.loopCount).2 = true ∧
    (objectBake true (occlusion_list unitSeed rand0 noHitRay noHitB noHitB rotId triMesh
      1 (-1) 10 true ()) triMesh.loopCount).2 = false := by
  constructor
  · rw [occlusion_list_throw unitSeed rand0 PyExc.rayFailure throwRay noHitB noHitB
      rotId triMesh 1 (1 / 2) 10 true () (fun _ _ _ => rfl) (by simp [triMesh])
      one_ne_zero]
    rfl
  · rw [occlusion_eval true]
    rfl

/-- C6 counterexample: a throwing ray-intersection query is not treated as a miss for
that ray: the exception propagates and the object's bake is aborted, recorded by the
operator as a failed object. -/
theorem C6_counterexample :
    (objectBake false (occlusion_list unitSeed rand0 throwRay noHitB noHitB rotId triMesh
      1 (1 / 2) 10 false ()) triMesh.loopCount).1 =
      BakeOutcome.failed (FailReason.exc PyExc.rayFailure) := by
  rw [occlusion_list_throw unitSeed rand0 PyExc.rayFailure throwRay noHitB noHitB rotId
    triMesh 1 (1 / 2) 10 false () (fun _ _ _ => rfl) (by simp [triMesh]) one_ne_zero]
  rfl

/-- C6 amended: if a ray-intersection query raises during a bake, the exception
propagates out of occlusion_list — the vertex's remaining rays are not processed and the
object's bake is aborted; the per-object handler records the object as failed with that
exception (the ray is not retried and is not treated as a miss); other objects are
unaffected because the failure is confined to this object's recorded outcome. -/
theorem C6_amended {R : Type} (seedFn : ℕ → R) (randFn : R → ℝ × R) (e : PyExc)
    (objRay : Vec3 → Vec3 → ℝ → Except PyExc (Option (Vec3 × Vec3)))
    (oE oS : Vec3 → Vec3 → ℝ → Except PyExc Bool) (rotApp : Vec3 → Vec3 → Vec3)
    (m : MeshData) (raycount : ℕ) (blend dist : ℝ) (gp : Bool) (s : R)
    (ho : ∀ a d c, objRay a d c = Except.error e) (hm : m.verts ≠ [])
    (h0 : raycount ≠ 0) :
    occlusion_list seedFn randFn objRay oE oS rotApp m raycount blend dist gp s =
      Except.error e ∧
    (objectBake gp (occlusion_list seedFn randFn objRay oE oS rotApp m raycount blend
      dist gp s) m.loopCount).1 = BakeOutcome.failed (FailReason.exc e) := by
  have h := occlusion_list_throw seedFn randFn e objRay oE oS rotApp m raycount blend
    dist gp s ho hm h0
  exact ⟨h, by rw [h]; rfl⟩

theorem C6_amended_witness :
    occlusion_list unitSeed rand0 throwRay noHitB noHitB rotId triMesh 2 (1 / 2) 10
      false () = Except.error PyExc.rayFailure ∧
    (objectBake false (occlusion_list unitSeed rand0 throwRay noHitB noHitB rotId triMesh
      2 (1 / 2) 10 false ()) triMesh.loopCount).1 =
      BakeOutcome.failed (FailReason.exc PyExc.rayFailure) :=
  C6_amended unitSeed rand0 PyExc.rayFailure throwRay noHitB noHitB rotId triMesh 2
    (1 / 2) 10 false () (fun _ _ _ => rfl) (by simp [triMesh]) two_ne_zero

/-- C7 counterexample: a bake invoked with a negative blend factor is not reported as an
error and computation is not skipped: the blend is clamped, every vertex is processed,
and a full color buffer is produced and written (the object's bake succeeds). -/
theorem C7_counterexample :
    (objectBake false (occlusion_list unitSeed rand0 noHitRay noHitB noHitB rotId triMesh
      1 (-1) 10 false ()) triMesh.loopCount).1 =
      BakeOutcome.baked [1, 1, 1, 1, 1, 1, 1, 1, 1, 1, 1, 1] := by
  rw [occlusion_eval false]
  rfl

/-- C7 amended: a zero ray_count raises ZeroDivisionError before any per-vertex
computation and is recorded as an error; an empty vertex set makes occlusion_list return
None, which the operator reports as a no-data error with no colors written; but a
negative blend factor is NOT rejected — it is clamped to 0 and the bake proceeds exactly
as with blend 0 (and a negative distance is passed through to the ray queries
unvalidated). -/
theorem C7_amended :
    (∀ {R : Type} (seedFn : ℕ → R) (randFn : R → ℝ × R)
      (objRay : Vec3 → Vec3 → ℝ → Except PyExc (Option (Vec3 × Vec3)))
      (oE oS : Vec3 → Vec3 → ℝ → Except PyExc Bool) (rotApp : Vec3 → Vec3 → Vec3)
      (m : MeshData) (blend dist : ℝ) (gp : Bool) (s : R),
      occlusion_list seedFn randFn objRay oE oS rotApp m 0 blend dist gp s =
        Except.error PyExc.zeroDiv) ∧
    (∀ {R : Type} (seedFn : ℕ → R) (randFn : R → ℝ × R)
      (objRay : Vec3 → Vec3 → ℝ → Except PyExc (Option (Vec3 × Vec3)))
      (oE oS : Vec3 → Vec3 → ℝ → Except PyExc Bool) (rotApp : Vec3 → Vec3 → Vec3)
      (m : MeshData) (raycount : ℕ) (blend dist : ℝ) (gp : Bool) (s : R),
      m.verts = [] → raycount ≠ 0 →
      occlusion_list seedFn randFn objRay oE oS rotApp m raycount blend dist gp s =
        Except.ok none ∧
      (objectBake gp (occlusion_list seedFn randFn objRay oE oS rotApp m raycount blend
        dist gp s) m.loopCount).1 = BakeOutcome.failed FailReason.noData) ∧
    (∀ {R : Type} (seedFn : ℕ → R) (randFn : R → ℝ × R)
      (objRay : Vec3 → Vec3 → ℝ → Except PyExc (Option (Vec3 × Vec3)))
      (oE oS : Vec3 → Vec3 → ℝ → Except PyExc Bool) (rotApp : Vec3 → Vec3 → Vec3)
      (m : MeshData) (raycount : ℕ) (blend dist : ℝ) (gp : Bool) (s : R),
      blend < 0 →
      occlusion_list seedFn randFn objRay oE oS rotApp m raycount blend dist gp s =
        occlusion_list seedFn randFn objRay oE oS rotApp m raycount 0 dist gp s) := by
  refine ⟨?_, ?_, ?_⟩
  · intro R seedFn randFn objRay oE oS rotApp m blend dist gp s
    simp [occlusion_list]
  · intro R seedFn randFn objRay oE oS rotApp m raycount blend dist gp s hverts h0
    have hvd : vertex_data_dict m.M m.verts m.edges = [] := by
      rw [hverts]
      rfl
    constructor
    · simp only [occlusion_list]
      rw [if_neg h0, if_pos hvd]
    · simp only [occlusion_list]
      rw [if_neg h0, if_pos hvd]
      rfl
  · intro R seedFn randFn objRay oE oS rotApp m raycount blend dist gp s hblend
    have hcb : clampBlend blend = clampBlend 0 := by
      unfold clampBlend
      rw [min_eq_left (le_trans (le_of_lt hblend) zero_le_one)]
      rw [max_eq_right (le_of_lt hblend)]
      norm_num
    simp only [occlusion_list]
    rw [hcb]

theorem C7_amended_witness :
    occlusion_list unitSeed rand0 noHitRay noHitB noHitB rotId triMesh 0 (1 / 2) 10
      false () = Except.error PyExc.zeroDiv ∧
    (occlusion_list unitSeed rand0 noHitRay noHitB noHitB rotId emptyMesh 1 (1 / 2) 10
      false () = Except.ok none ∧
      (objectBake false (occlusion_list unitSeed rand0 noHitRay noHitB noHitB rotId
        emptyMesh 1 (1 / 2) 10 false ()) emptyMesh.loopCount).1 =
        BakeOutcome.failed FailReason.noData) ∧
    occlusion_list unitSeed rand0 noHitRay noHitB noHitB rotId triMesh 1 (-1) 10
      false () =
      occlusion_list unitSeed rand0 noHitRay noHitB noHitB rotId triMesh 1 0 10
        false () :=
  ⟨C7_amended.1 unitSeed rand0 noHitRay noHitB noHitB rotId triMesh (1 / 2) 10 false (),
   C7_amended.2.1 unitSeed rand0 noHitRay noHitB noHitB rotId emptyMesh 1 (1 / 2) 10
     false () rfl one_ne_zero,
   C7_amended.2.2 unitSeed rand0 noHitRay noHitB noHitB rotId triMesh 1 (-1) 10 false ()
     (by norm_num)⟩

/-- C10: on a mesh whose polygon loop indices are within the loop count, both estimator
paths return, whenever they complete with a non-empty result, a flat color buffer of
length exactly 4 times the mesh's loop count — the buffer is pre-allocated at that length
and per-corner writes only replace slots — so the caller's size-mismatch branch can never
be taken for a non-empty occlusion_list result. -/
theorem C10_buffer_length :
    (∀ {R : Type} (seedFn : ℕ → R) (randFn : R → ℝ × R)
      (objRay : Vec3 → Vec3 → ℝ → Except PyExc (Option (Vec3 × Vec3)))
      (oE oS : Vec3 → Vec3 → ℝ → Except PyExc Bool) (rotApp : Vec3 → Vec3 → Vec3)
      (m : MeshData) (raycount : ℕ) (blend dist : ℝ) (gp : Bool) (s : R) (cs : List ℝ),
      (∀ f ∈ m.polys, ∀ p ∈ f, p.2 < m.loopCount) →
      occlusion_list seedFn randFn objRay oE oS rotApp m raycount blend dist gp s =
        Except.ok (some cs) →
      cs.length = 4 * m.loopCount) ∧
    (∀ {R : Type} (randFn : R → ℝ × R) (oracle : Vec3 → Vec3 → ℝ → Except PyExc Bool)
      (m : MeshData) (ray_count : ℕ) (distance : ℝ) (gp : Bool) (s : R) (cs : List ℝ),
      calculate_geonode_ao randFn oracle m ray_count distance gp s = Except.ok cs →
      cs.length = 4 * m.loopCount) ∧
    (∀ {R : Type} (seedFn : ℕ → R) (randFn : R → ℝ × R)
      (objRay : Vec3 → Vec3 → ℝ → Except PyExc (Option (Vec3 × Vec3)))
      (oE oS : Vec3 → Vec3 → ℝ → Except PyExc Bool) (rotApp : Vec3 → Vec3 → Vec3)
      (m : MeshData) (raycount : ℕ) (blend dist : ℝ) (gp : Bool) (s : R),
      (∀ f ∈ m.polys, ∀ p ∈ f, p.2 < m.loopCount) →
      (objectBake gp (occlusion_list seedFn randFn objRay oE oS rotApp m raycount blend
        dist gp s) m.loopCount).1 ≠ BakeOutcome.failed FailReason.sizeMismatch) := by
  have main : ∀ {R : Type} (seedFn : ℕ → R) (randFn : R → ℝ × R)
      (objRay : Vec3 → Vec3 → ℝ → Except PyExc (Option (Vec3 × Vec3)))
      (oE oS : Vec3 → Vec3 → ℝ → Except PyExc Bool) (rotApp : Vec3 → Vec3 → Vec3)
      (m : MeshData) (raycount : ℕ) (blend dist : ℝ) (gp : Bool) (s : R) (cs : List ℝ),
      (∀ f ∈ m.polys, ∀ p ∈ f, p.2 < m.loopCount) →
      occlusion_list seedFn randFn objRay oE oS rotApp m raycount blend dist gp s =
        Except.ok (some cs) →
      cs.length = 4 * m.loopCount := by
    intro R seedFn randFn objRay oE oS rotApp m raycount blend dist gp s cs hwf heq
    simp only [occlusion_list] at heq
    by_cases h0 : raycount = 0
    · rw [if_pos h0] at heq
      exact Except.noConfusion heq
    · rw [if_neg h0] at heq
      by_cases hvd : vertex_data_dict m.M m.verts m.edges = []
      · rw [if_pos hvd] at heq
        injection heq with h2
        exact Option.noConfusion h2
      · rw [if_neg hvd] at heq
        cases hvl : vertLoop objRay oE oS rotApp
            ((ray_randomizer seedFn randFn raycount s).1) raycount
            (1 / (raycount : ℝ)) (clampBlend blend) dist
            (vertex_data_dict m.M m.verts m.edges) with
        | error e =>
          rw [hvl] at heq
          exact Except.noConfusion heq
        | ok occs =>
          rw [hvl] at heq
          injection heq with h2
          injection h2 with h3
          rw [← h3]
          exact length_buildLoopColors m.loopCount m.polys _ hwf
  refine ⟨main, ?_, ?_⟩
  · intro R randFn oracle m ray_count distance gp s cs heq
    unfold calculate_geonode_ao at heq
    cases hgv : geoVertLoop randFn oracle m.M ray_count distance gp m.verts 0
        (fun _ => 1) s with
    | error e =>
      rw [hgv] at heq
      exact Except.noConfusion heq
    | ok res =>
      rw [hgv] at heq
      injection heq with h2
      rw [← h2, length_geo_foldl, List.length_replicate]
  · intro R seedFn randFn objRay oE oS rotApp m raycount blend dist gp s hwf
    cases heq : occlusion_list seedFn randFn objRay oE oS rotApp m raycount blend dist
        gp s with
    | error e => simp [objectBake]
    | ok o =>
      cases o with
      | none => simp [objectBake]
      | some cs =>
        have hlen := main seedFn randFn objRay oE oS rotApp m raycount blend dist gp s
          cs hwf heq
        simp [objectBake, hlen]

theorem C10_buffer_length_witness :
    ([1, 1, 1, 1, 1, 1, 1, 1, 1, 1, 1, 1] : List ℝ).length = 4 * triMesh.loopCount ∧
    ([1, 1, 1, 1, 1, 1, 1, 1, 1, 1, 1, 1] : List ℝ).length = 4 * triMesh.loopCount ∧
    (objectBake false (occlusion_list unitSeed rand0 noHitRay noHitB noHitB rotId triMesh
      1 (-1) 10 false ()) triMesh.loopCount).1 ≠
      BakeOutcome.failed FailReason.sizeMismatch :=
  ⟨C10_buffer_length.1 unitSeed rand0 noHitRay noHitB noHitB rotId triMesh 1 (-1) 10
     false () _ (by decide) (occlusion_eval false),
   C10_buffer_length.2.1 rand0 noHitB triMesh 0 10 false () _ geonode_eval,
   C10_buffer_length.2.2 unitSeed rand0 noHitRay noHitB noHitB rotId triMesh 1 (-1) 10
     false () (by decide)⟩

end Source2AO
